import Mathlib

/-!
Verification development for the subquery indexer-proxy repository.

The definitions below shallowly embed the pay-as-you-go state-channel
code (`utils/src/payg.rs`, `src/payg.rs`, `indexer-proxy/src/payg.rs`,
`consumer-proxy/src/payg.rs`) and the P2P behaviours
(`src/p2p/behaviour/rpc/mod.rs`, `src/p2p/behaviour/group/handler.rs`,
`src/p2p/server.rs`).  Machine integers (`U256`, `u64`, `u8`) are
modelled as `Nat` with explicit `% 2 ^ w` at the points where the Rust
code can overflow or truncate.  Fallible Rust functions returning
`Result<_, Error>` are modelled with `Except Error`.
-/

set_option autoImplicit false

namespace SubqlProxy

/-- Error kinds of `utils/src/error.rs` that the embedded code paths use. -/
inductive Error where
  | InvalidRequest
  | InvalidSignature
  | InvalidSerialize
  | ServiceException
  | NoPermissionError
  | InvalidAuthHeaderError
  deriving DecidableEq, Repr

/-- Big-endian byte decoding: `foldl (acc * 256 + byte)`, as done by
`H256::from_slice` / `U256::from_big_endian`. -/
def bytesToNatBE (bs : List Nat) : Nat :=
  bs.foldl (fun a b => a * 256 + b) 0

/-- Big-endian encoding of `n` into exactly `len` bytes (truncating to
`n % 256 ^ len`), as done by `to_big_endian` on fixed-width words. -/
def natToBytesBE : Nat → Nat → List Nat
  | 0, _ => []
  | len + 1, n => natToBytesBE len (n / 256) ++ [n % 256]

/-- Lowercase hex digit characters, the alphabet used by `hex::encode`. -/
def hexCharsLower : List Char :=
  ['0', '1', '2', '3', '4', '5', '6', '7'] ++ ['8', '9', 'a', 'b', 'c', 'd', 'e', 'f']

/-- Uppercase hex digit characters, the alphabet used by `format!("{:#X}")`. -/
def hexCharsUpper : List Char :=
  ['0', '1', '2', '3', '4', '5', '6', '7'] ++ ['8', '9', 'A', 'B', 'C', 'D', 'E', 'F']

/-- Lowercase hex digit for a value below 16. -/
def hexDigitLower (n : Nat) : Char := hexCharsLower.getD n '0'

/-- Uppercase hex digit for a value below 16. -/
def hexDigitUpper (n : Nat) : Char := hexCharsUpper.getD n '0'

/-- Value of a hex digit character, case-insensitive, as accepted by the
`hex` crate and by `from_str_radix(_, 16)`. -/
def hexDigitVal? (c : Char) : Option Nat :=
  if '0' ≤ c ∧ c ≤ '9' then some (c.toNat - 48)
  else if 'a' ≤ c ∧ c ≤ 'f' then some (c.toNat - 87)
  else if 'A' ≤ c ∧ c ≤ 'F' then some (c.toNat - 55)
  else none

/-- Character list of `hex::encode`: two lowercase digits per byte. -/
def hexEncodeChars (bs : List Nat) : List Char :=
  bs.flatMap (fun b => [hexDigitLower (b / 16), hexDigitLower (b % 16)])

/-- Model of `hex::encode`. -/
def hexEncode (bs : List Nat) : String :=
  String.mk (hexEncodeChars bs)

/-- Model of `hex::decode` on a character list: fails on an odd number of
characters or on a non-hex character. -/
def hexDecodeChars? : List Char → Option (List Nat)
  | [] => some []
  | [_] => none
  | c1 :: c2 :: rest => do
    let hi ← hexDigitVal? c1
    let lo ← hexDigitVal? c2
    let tl ← hexDecodeChars? rest
    some ((hi * 16 + lo) :: tl)

/-- Model of `hex::decode`. -/
def hexDecode? (s : String) : Option (List Nat) :=
  hexDecodeChars? s.data

/-- Minimal decimal digit list of `n`, most significant first (`[0]` for 0),
as printed by the `Display` impl of `U256`. -/
def decDigits (n : Nat) : List Nat :=
  if _h : n < 10 then [n] else decDigits (n / 10) ++ [n % 10]
  decreasing_by exact Nat.div_lt_self (by omega) (by omega)

/-- Model of `U256`'s decimal `to_string`. -/
def natToDecStr (n : Nat) : String :=
  String.mk ((decDigits n).map Nat.digitChar)

/-- Minimal hex digit list of `n`, most significant first (`[0]` for 0),
as printed by the `UpperHex` impl of `U256`. -/
def hexDigitsMin (n : Nat) : List Nat :=
  if _h : n < 16 then [n] else hexDigitsMin (n / 16) ++ [n % 16]
  decreasing_by exact Nat.div_lt_self (by omega) (by omega)

/-- Model of `format!("{:#X}", u256)`: `0x` followed by minimal uppercase
hex digits. -/
def natToHexUpper0x (n : Nat) : String :=
  "0x" ++ String.mk ((hexDigitsMin n).map hexDigitUpper)

/-- Step-by-step decimal accumulator of `U256::from_dec_str`: each step
multiplies by 10 and adds the digit, erroring on a non-digit character or
on 256-bit overflow. -/
def parseDecChars? : List Char → Nat → Option Nat
  | [], acc => some acc
  | c :: rest, acc =>
    if c.isDigit then
      let v := acc * 10 + (c.toNat - 48)
      if v < 2 ^ 256 then parseDecChars? rest v else none
    else none

/-- Model of `U256::from_dec_str`. -/
def from_dec_str? (s : String) : Option Nat :=
  parseDecChars? s.data 0

/-- Hex accumulator over the digit characters, used by the `FromStr`
models; no overflow check (callers bound the digit count first). -/
def parseHexChars? : List Char → Nat → Option Nat
  | [], acc => some acc
  | c :: rest, acc => do
    let v ← hexDigitVal? c
    parseHexChars? rest (acc * 16 + v)

/-- Strip one leading `0x`, as `strip_prefix("0x")` does in the `FromStr`
impls of `uint` (0.9) and `fixed-hash` (0.7). -/
def strip0x : List Char → List Char
  | '0' :: 'x' :: rest => rest
  | cs => cs

/-- Model of `U256`'s hex `FromStr` (`"channelId".parse()`): optional `0x`
prefix, at most 64 hex digits, case-insensitive. -/
def u256_from_str? (s : String) : Option Nat :=
  let cs := strip0x s.data
  if cs.length ≤ 64 then parseHexChars? cs 0 else none

/-- Model of the `Debug`/`{:?}` rendering of an `Address` (`H160`):
`0x` plus exactly 40 lowercase hex digits. -/
def addrDebugStr (a : Nat) : String :=
  "0x" ++ hexEncode (natToBytesBE 20 a)

/-- Model of `Address`'s `FromStr`: optional `0x` prefix and exactly 40
hex digits. -/
def address_from_str? (s : String) : Option Nat :=
  let cs := strip0x s.data
  if cs.length = 40 then (hexDecodeChars? cs).map bytesToNatBE else none

/-! JSON values: the subset of `serde_json::Value` the payg codec uses. -/

inductive Json where
  | null
  | bool (b : Bool)
  | num (n : Nat)
  | str (s : String)
  | arr (xs : List Json)
  | obj (fields : List (String × Json))

/-- Model of `params["key"]` on a `serde_json::Value`: the value stored at
`key` when the value is an object that has the key, `Null` otherwise. -/
def Json.index : Json → String → Json
  | .obj fields, k => ((fields.find? (fun p => p.1 == k)).map Prod.snd).getD .null
  | _, _ => .null

/-- Model of `Value::as_str` (restricted to returning the string itself). -/
def Json.asStr : Json → Option String
  | .str s => some s
  | _ => none

/-- Model of `Value::as_bool`. -/
def Json.asBool : Json → Option Bool
  | .bool b => some b
  | _ => none

/-! Signatures and their wire conversions (`utils/src/payg.rs`). -/

/-- Model of `web3::signing::Signature`: two 32-byte words `r`, `s` and a
`u64` recovery value `v`. -/
structure Sig where
  r : Nat
  s : Nat
  v : Nat
  deriving DecidableEq, Repr

/-- Source `default_sign`: the all-zero signature. -/
def default_sign : Sig := { r := 0, s := 0, v := 0 }

/-- Source `convert_sign_to_bytes`: `r ‖ s ‖ (recovery_id + 27)`, with the
`u8` truncation of the Rust casts made explicit. -/
def convert_sign_to_bytes (sig : Sig) : List Nat :=
  let recovery_id :=
    if sig.v = 27 then 0
    else if sig.v = 28 then 1
    else if 35 ≤ sig.v then (sig.v - 1) % 2
    else sig.v % 256
  natToBytesBE 32 sig.r ++ natToBytesBE 32 sig.s ++ [(recovery_id + 27) % 256]

/-- Source `convert_sign_to_string`. -/
def convert_sign_to_string (sig : Sig) : String :=
  hexEncode (convert_sign_to_bytes sig)

/-- Source `convert_string_to_sign`: invalid hex silently falls back to 65
zero bytes (`unwrap_or`), and short input is zero-padded on the right. -/
def convert_string_to_sign (s : String) : Sig :=
  let bytes0 := (hexDecode? s).getD (List.replicate 65 0)
  let bytes :=
    if bytes0.length < 65 then bytes0 ++ List.replicate (65 - bytes0.length) 0 else bytes0
  { r := bytesToNatBE (bytes.take 32)
  , s := bytesToNatBE ((bytes.drop 32).take 32)
  , v := bytes.getD 64 0 }

/-- Source `convert_recovery_sign`: the 64-byte `r ‖ s` array and an `i32`
recovery id; the fallthrough arm is the wrapping signed `u64 → i32` cast. -/
def convert_recovery_sign (sig : Sig) : List Nat × Int :=
  let recovery_id : Int :=
    if sig.v = 27 then 0
    else if sig.v = 28 then 1
    else if 35 ≤ sig.v then ((sig.v - 1) % 2 : Nat)
    else Int.ofNat (sig.v % 2 ^ 32) - (if 2 ^ 31 ≤ sig.v % 2 ^ 32 then 2 ^ 32 else 0)
  (natToBytesBE 32 sig.r ++ natToBytesBE 32 sig.s, recovery_id)

/-- Abstract interface to the external cryptographic primitives
(`keccak256`, `SecretKeyRef::sign_message`, `web3::signing::recover`);
secret keys and addresses are represented as `Nat`.  The state-machine
plumbing proved below holds for every implementation of this interface. -/
structure Crypto where
  keccak : List Nat → List Nat
  sign_message : Nat → List Nat → Option Sig
  ecrecover : List Nat → List Nat → Int → Option Nat
  address : Nat → Nat

/-- Byte list of the `"\x19Ethereum Signed Message:\n32"` prefix. -/
def ethMessagePrefix : List Nat :=
  25 :: ("Ethereum Signed Message:\n32".data.map Char.toNat)

/-- Canonical EIP-191 payload: `keccak256(prefix ‖ keccak256(msg))`. -/
def signedPayload (c : Crypto) (msg : List Nat) : List Nat :=
  c.keccak (ethMessagePrefix ++ c.keccak msg)

/-- ABI head word of a static 256-bit token (big-endian, 32 bytes). -/
def abiWord (n : Nat) : List Nat := natToBytesBE 32 n

/-- ABI head word of a `bool` token. -/
def abiWordBool (b : Bool) : List Nat := natToBytesBE 32 (if b then 1 else 0)

/-- ABI tail of a dynamic `bytes` token: length word plus the data
right-padded with zeros to a multiple of 32 bytes. -/
def abiBytesTail (bs : List Nat) : List Nat :=
  abiWord bs.length ++ bs ++ List.replicate ((32 - bs.length % 32) % 32) 0

/-- Map `Option` failure to `Error::InvalidSignature`, the
`map_err(|_| Error::InvalidSignature)` pattern. -/
def orInvalidSig {α : Type} : Option α → Except Error α
  | some a => .ok a
  | none => .error .InvalidSignature

/-- Map `Option` failure to `Error::InvalidSerialize`, the
`ok_or(Error::InvalidSerialize)` / `map_err` pattern of `from_json`. -/
def orSerialize {α : Type} : Option α → Except Error α
  | some a => .ok a
  | none => .error .InvalidSerialize

/-! The `QueryState` co-signed record (`utils/src/payg.rs`, identical in
`src/payg.rs`). -/

structure QueryState where
  channel_id : Nat
  indexer : Nat
  consumer : Nat
  count : Nat
  price : Nat
  is_final : Bool
  indexer_sign : Sig
  consumer_sign : Sig
  next_price : Nat
  deriving DecidableEq, Repr

namespace QueryState

/-- The `encode(&[channel_id, count, price, is_final])` ABI message of
`QueryState::recover` / `QueryState::sign`: four static tokens. -/
def abiMsg (st : QueryState) : List Nat :=
  abiWord st.channel_id ++ abiWord st.count ++ abiWord st.price ++ abiWordBool st.is_final

/-- The keccak256 EIP-191 payload both `sign` and `recover` rebuild. -/
def payload (c : Crypto) (st : QueryState) : List Nat :=
  signedPayload c st.abiMsg

/-- Source `QueryState::recover`: recovers both parties from their
signature slots over the shared payload. -/
def recover (c : Crypto) (st : QueryState) : Except Error (Nat × Nat) := do
  let p := payload c st
  let is := convert_recovery_sign st.indexer_sign
  let cs := convert_recovery_sign st.consumer_sign
  let indexer ← orInvalidSig (c.ecrecover p is.1 is.2)
  let consumer ← orInvalidSig (c.ecrecover p cs.1 cs.2)
  .ok (indexer, consumer)

/-- Source `QueryState::sign`: writes the fresh signature into the consumer
slot when `is_consumer` is true, else into the indexer slot. -/
def sign (c : Crypto) (key : Nat) (st : QueryState) (is_consumer : Bool) :
    Except Error QueryState := do
  let sg ← orInvalidSig (c.sign_message key (payload c st))
  if is_consumer then .ok { st with consumer_sign := sg }
  else .ok { st with indexer_sign := sg }

/-- Source `QueryState::consumer_generate`. -/
def consumer_generate (c : Crypto) (channel_id indexer consumer count price : Nat)
    (is_final : Bool) (key : Nat) : Except Error QueryState :=
  sign c key
    { channel_id := channel_id, indexer := indexer, consumer := consumer
    , count := count, price := price, is_final := is_final
    , consumer_sign := default_sign, indexer_sign := default_sign, next_price := 0 }
    true

/-- Source `QueryState::from_json`. -/
def from_json (params : Json) : Except Error QueryState := do
  let channel_id ← orSerialize ((params.index "channelId").asStr)
  let channel_id ← orSerialize (u256_from_str? channel_id)
  let indexer ← orSerialize ((params.index "indexer").asStr)
  let indexer ← orSerialize (address_from_str? indexer)
  let consumer ← orSerialize ((params.index "consumer").asStr)
  let consumer ← orSerialize (address_from_str? consumer)
  let count ← orSerialize ((params.index "count").asStr)
  let count ← orSerialize (from_dec_str? count)
  let price ← orSerialize ((params.index "price").asStr)
  let price ← orSerialize (from_dec_str? price)
  let is_final ← orSerialize ((params.index "isFinal").asBool)
  let indexer_sign_str ← orSerialize ((params.index "indexerSign").asStr)
  let indexer_sign := convert_string_to_sign indexer_sign_str
  let consumer_sign_str ← orSerialize ((params.index "consumerSign").asStr)
  let consumer_sign := convert_string_to_sign consumer_sign_str
  let next_price ← orSerialize ((params.index "nextPrice").asStr)
  let next_price ← orSerialize (from_dec_str? next_price)
  .ok { channel_id := channel_id, indexer := indexer, consumer := consumer
      , count := count, price := price, is_final := is_final
      , indexer_sign := indexer_sign, consumer_sign := consumer_sign
      , next_price := next_price }

/-- Source `QueryState::to_json`. -/
def to_json (st : QueryState) : Json :=
  .obj
    [ ("channelId", .str (natToHexUpper0x st.channel_id))
    , ("indexer", .str (addrDebugStr st.indexer))
    , ("consumer", .str (addrDebugStr st.consumer))
    , ("count", .str (natToDecStr st.count))
    , ("price", .str (natToDecStr st.price))
    , ("isFinal", .bool st.is_final)
    , ("indexerSign", .str (convert_sign_to_string st.indexer_sign))
    , ("consumerSign", .str (convert_sign_to_string st.consumer_sign))
    , ("nextPrice", .str (natToDecStr st.next_price))
    ]

end QueryState

/-! The `OpenState` co-signed record of `utils/src/payg.rs` (this version
carries the opaque `callback` bytes). -/

structure OpenState where
  channel_id : Nat
  indexer : Nat
  consumer : Nat
  amount : Nat
  expiration : Nat
  callback : List Nat
  indexer_sign : Sig
  consumer_sign : Sig
  next_price : Nat
  deriving DecidableEq, Repr

namespace OpenState

/-- The `encode(&[channel_id, indexer, consumer, amount, expiration,
callback])` ABI message: five static head words, the offset word (`6 * 32 =
192`) of the single dynamic token, then the `bytes` tail. -/
def abiMsg (st : OpenState) : List Nat :=
  abiWord st.channel_id ++ abiWord st.indexer ++ abiWord st.consumer ++
    abiWord st.amount ++ abiWord st.expiration ++ abiWord 192 ++ abiBytesTail st.callback

/-- The keccak256 EIP-191 payload both `sign` and `recover` rebuild. -/
def payload (c : Crypto) (st : OpenState) : List Nat :=
  signedPayload c st.abiMsg

/-- Source `OpenState::recover`. -/
def recover (c : Crypto) (st : OpenState) : Except Error (Nat × Nat) := do
  let p := payload c st
  let is := convert_recovery_sign st.indexer_sign
  let cs := convert_recovery_sign st.consumer_sign
  let indexer ← orInvalidSig (c.ecrecover p is.1 is.2)
  let consumer ← orInvalidSig (c.ecrecover p cs.1 cs.2)
  .ok (indexer, consumer)

/-- Source `OpenState::sign`. -/
def sign (c : Crypto) (key : Nat) (st : OpenState) (is_consumer : Bool) :
    Except Error OpenState := do
  let sg ← orInvalidSig (c.sign_message key (payload c st))
  if is_consumer then .ok { st with consumer_sign := sg }
  else .ok { st with indexer_sign := sg }

/-- Source `OpenState::from_json`. -/
def from_json (params : Json) : Except Error OpenState := do
  let channel_id ← orSerialize ((params.index "channelId").asStr)
  let channel_id ← orSerialize (u256_from_str? channel_id)
  let indexer ← orSerialize ((params.index "indexer").asStr)
  let indexer ← orSerialize (address_from_str? indexer)
  let consumer ← orSerialize ((params.index "consumer").asStr)
  let consumer ← orSerialize (address_from_str? consumer)
  let amount ← orSerialize ((params.index "amount").asStr)
  let amount ← orSerialize (from_dec_str? amount)
  let expiration ← orSerialize ((params.index "expiration").asStr)
  let expiration ← orSerialize (from_dec_str? expiration)
  let callback ← orSerialize ((params.index "callback").asStr)
  let callback ← orSerialize (hexDecode? callback)
  let indexer_sign_str ← orSerialize ((params.index "indexerSign").asStr)
  let indexer_sign := convert_string_to_sign indexer_sign_str
  let consumer_sign_str ← orSerialize ((params.index "consumerSign").asStr)
  let consumer_sign := convert_string_to_sign consumer_sign_str
  let next_price ← orSerialize ((params.index "nextPrice").asStr)
  let next_price ← orSerialize (from_dec_str? next_price)
  .ok { channel_id := channel_id, indexer := indexer, consumer := consumer
      , amount := amount, expiration := expiration, callback := callback
      , indexer_sign := indexer_sign, consumer_sign := consumer_sign
      , next_price := next_price }

/-- Source `OpenState::to_json`. -/
def to_json (st : OpenState) : Json :=
  .obj
    [ ("channelId", .str (natToHexUpper0x st.channel_id))
    , ("indexer", .str (addrDebugStr st.indexer))
    , ("consumer", .str (addrDebugStr st.consumer))
    , ("amount", .str (natToDecStr st.amount))
    , ("expiration", .str (natToDecStr st.expiration))
    , ("callback", .str (hexEncode st.callback))
    , ("indexerSign", .str (convert_sign_to_string st.indexer_sign))
    , ("consumerSign", .str (convert_sign_to_string st.consumer_sign))
    , ("nextPrice", .str (natToDecStr st.next_price))
    ]

end OpenState

/-- Canonical signature: 256-bit `r`, `s` and a `v` already normalized to
the on-wire 27/28 convention. -/
def Sig.Canonical (sig : Sig) : Prop :=
  sig.r < 2 ^ 256 ∧ sig.s < 2 ^ 256 ∧ (sig.v = 27 ∨ sig.v = 28)

/-- Well-formed `QueryState`: every field within its Rust type's range,
signatures canonical. -/
def QueryState.Wf (st : QueryState) : Prop :=
  st.channel_id < 2 ^ 256 ∧ st.indexer < 2 ^ 160 ∧ st.consumer < 2 ^ 160 ∧
    st.count < 2 ^ 256 ∧ st.price < 2 ^ 256 ∧ st.next_price < 2 ^ 256 ∧
    st.indexer_sign.Canonical ∧ st.consumer_sign.Canonical

/-- Well-formed `OpenState`. -/
def OpenState.Wf (st : OpenState) : Prop :=
  st.channel_id < 2 ^ 256 ∧ st.indexer < 2 ^ 160 ∧ st.consumer < 2 ^ 160 ∧
    st.amount < 2 ^ 256 ∧ st.expiration < 2 ^ 256 ∧ st.next_price < 2 ^ 256 ∧
    (∀ b ∈ st.callback, b < 256) ∧
    st.indexer_sign.Canonical ∧ st.consumer_sign.Canonical


/-! The `OpenState` variant of `src/payg.rs` (no `callback` field) and the
indexer `/open` route handler `open_state` built on it.  The handler in
`indexer-proxy/src/payg.rs` is the same code path with an additional
`deployment_id` carried to the coordinator; both share the decisive line
`let (_, _consumer) = state.recover()?;` that discards the recovered
addresses without comparing them to the state's fields. -/

namespace SrcPayg

structure OpenState where
  channel_id : Nat
  indexer : Nat
  consumer : Nat
  amount : Nat
  expiration : Nat
  indexer_sign : Sig
  consumer_sign : Sig
  next_price : Nat
  deriving DecidableEq, Repr

/-- The `encode(&[channel_id, indexer, consumer, amount, expiration])` ABI
message of this variant's `recover` / `sign`: five static words. -/
def OpenState.abiMsg (st : OpenState) : List Nat :=
  abiWord st.channel_id ++ abiWord st.indexer ++ abiWord st.consumer ++
    abiWord st.amount ++ abiWord st.expiration

/-- The keccak256 EIP-191 payload of this variant. -/
def OpenState.payload (c : Crypto) (st : OpenState) : List Nat :=
  signedPayload c st.abiMsg

/-- Source `OpenState::recover` of `src/payg.rs`. -/
def OpenState.recover (c : Crypto) (st : OpenState) : Except Error (Nat × Nat) := do
  let p := st.payload c
  let is := convert_recovery_sign st.indexer_sign
  let cs := convert_recovery_sign st.consumer_sign
  let indexer ← orInvalidSig (c.ecrecover p is.1 is.2)
  let consumer ← orInvalidSig (c.ecrecover p cs.1 cs.2)
  .ok (indexer, consumer)

/-- Source `OpenState::sign` of `src/payg.rs`. -/
def OpenState.sign (c : Crypto) (key : Nat) (st : OpenState) (is_consumer : Bool) :
    Except Error OpenState := do
  let sg ← orInvalidSig (c.sign_message key (st.payload c))
  if is_consumer then .ok { st with consumer_sign := sg }
  else .ok { st with indexer_sign := sg }

/-- Source `OpenState::from_json` of `src/payg.rs` (no `callback` key). -/
def OpenState.from_json (params : Json) : Except Error OpenState := do
  let channel_id ← orSerialize ((params.index "channelId").asStr)
  let channel_id ← orSerialize (u256_from_str? channel_id)
  let indexer ← orSerialize ((params.index "indexer").asStr)
  let indexer ← orSerialize (address_from_str? indexer)
  let consumer ← orSerialize ((params.index "consumer").asStr)
  let consumer ← orSerialize (address_from_str? consumer)
  let amount ← orSerialize ((params.index "amount").asStr)
  let amount ← orSerialize (from_dec_str? amount)
  let expiration ← orSerialize ((params.index "expiration").asStr)
  let expiration ← orSerialize (from_dec_str? expiration)
  let indexer_sign_str ← orSerialize ((params.index "indexerSign").asStr)
  let indexer_sign := convert_string_to_sign indexer_sign_str
  let consumer_sign_str ← orSerialize ((params.index "consumerSign").asStr)
  let consumer_sign := convert_string_to_sign consumer_sign_str
  let next_price ← orSerialize ((params.index "nextPrice").asStr)
  let next_price ← orSerialize (from_dec_str? next_price)
  .ok { channel_id := channel_id, indexer := indexer, consumer := consumer
      , amount := amount, expiration := expiration
      , indexer_sign := indexer_sign, consumer_sign := consumer_sign
      , next_price := next_price }

/-- Source `OpenState::to_json` of `src/payg.rs`. -/
def OpenState.to_json (st : OpenState) : Json :=
  .obj
    [ ("channelId", .str (natToHexUpper0x st.channel_id))
    , ("indexer", .str (addrDebugStr st.indexer))
    , ("consumer", .str (addrDebugStr st.consumer))
    , ("amount", .str (natToDecStr st.amount))
    , ("expiration", .str (natToDecStr st.expiration))
    , ("indexerSign", .str (convert_sign_to_string st.indexer_sign))
    , ("consumerSign", .str (convert_sign_to_string st.consumer_sign))
    , ("nextPrice", .str (natToDecStr st.next_price))
    ]

/-- Source `open_state` (`src/payg.rs`, the `POST /open` handler; the
`indexer-proxy` copy is identical in control flow): parse, countersign as
indexer, call `recover` and DISCARD both recovered addresses, ask the
coordinator for `lastPrice` (abstracted as the `lastPrice` argument), set
`next_price`, return the dual-signed JSON.  No comparison between the
recovered consumer and `state.consumer` is performed. -/
def open_state (c : Crypto) (key : Nat) (lastPrice : Except Error Nat) (body : Json) :
    Except Error Json := do
  let st ← OpenState.from_json body
  let st ← st.sign c key false
  let _ ← st.recover c
  let price ← lastPrice
  .ok (OpenState.to_json { st with next_price := price })

end SrcPayg

/-- The indexer-proxy's per-query price constant (`pub const PRICE: u64 = 10`). -/
def PRICE : Nat := 10

/-! The consumer-proxy channel store (`consumer-proxy/src/payg.rs`). -/

inductive ChannelStatus where
  | Finalized
  | Open
  | Challenge
  deriving DecidableEq, Repr

structure StateChannel where
  id : Nat
  status : ChannelStatus
  indexer : Nat
  consumer : Nat
  current_count : Nat
  onchain_count : Nat
  remote_count : Nat
  balance : Nat
  expiration_at : Nat
  challenge_at : Nat
  deployment_id : List Nat
  last_final : Bool
  last_price : Nat
  last_indexer_sign : Sig
  last_consumer_sign : Sig
  deriving DecidableEq, Repr

/-- The fields `StateChannel::add` reads off the incoming `OpenState`.
The consumer-proxy compiles against a draft `OpenState` that also carries
`deployment_id`; that variant's definition is not in the tree, so this
record holds exactly the fields `add` consumes. -/
structure OpenInfo where
  channel_id : Nat
  indexer : Nat
  consumer : Nat
  amount : Nat
  expiration : Nat
  deployment_id : List Nat
  next_price : Nat
  deriving DecidableEq, Repr

namespace ConsumerPayg

/-- The `CHANNELS` map, keyed by the hex of the deployment id.  A
`HashMap` is modelled as an association list with unique keys. -/
abbrev Store := List (String × StateChannel)

/-- Source `StateChannel::add`: installs a fresh channel record with all
counters at 0 and `last_price` taken from the state's `next_price`;
`HashMap::insert` replaces any previous entry at the key. -/
def add (store : Store) (state : OpenInfo) : Store :=
  let id := hexEncode state.deployment_id
  let channel : StateChannel :=
    { id := state.channel_id, indexer := state.indexer, consumer := state.consumer
    , balance := state.amount, expiration_at := state.expiration
    , status := .Open, current_count := 0, onchain_count := 0, remote_count := 0
    , challenge_at := 0, deployment_id := state.deployment_id
    , last_price := state.next_price, last_final := false
    , last_indexer_sign := default_sign, last_consumer_sign := default_sign }
  store.filter (fun p => p.1 ≠ id) ++ [(id, channel)]

/-- Source `StateChannel::get` after the route string has been decoded to
the hex key: a missing channel is `Error::InvalidRequest`. -/
def get (store : Store) (id : String) : Except Error StateChannel :=
  match store.find? (fun p => p.1 == id) with
  | some p => .ok p.2
  | none => .error .InvalidRequest

/-- Source `StateChannel::next_query`: advances the count by one and signs
as consumer; `is_final` is hardcoded `false` in the source
(`let is_final = false; // TODO more`).  The store is not mutated. -/
def next_query (c : Crypto) (ch : StateChannel) (key : Nat) : Except Error QueryState :=
  QueryState.consumer_generate c ch.id ch.indexer ch.consumer (ch.current_count + 1)
    ch.last_price false key

/-- The field overwrite `renew` performs on the located channel: the
peer's `state.count` replaces both `current_count` and `remote_count`. -/
def renewUpdate (ch : StateChannel) (state : QueryState) : StateChannel :=
  { ch with
    current_count := state.count, remote_count := state.count,
    last_price := state.next_price, last_final := state.is_final,
    last_indexer_sign := state.indexer_sign, last_consumer_sign := state.consumer_sign }

/-- Source `StateChannel::renew`: scans the map for a key whose channel id
matches `cid` (the source keeps the last met in iteration order; list
order stands in for the unspecified `HashMap` order), then updates that
entry in place; when no key matches, the looked-up key stays `""`. -/
def renew (store : Store) (cid : Nat) (state : QueryState) : Store :=
  let id := store.foldl (fun acc p => if p.2.id = cid then p.1 else acc) ""
  store.map (fun p => if p.1 = id then (p.1, renewUpdate p.2 state) else p)

/-- The pure prefix of the consumer-proxy `query_handler`
(`consumer-proxy/src/server.rs`): look the channel up, then generate the
next QueryState; forwarding to the indexer is external I/O. -/
def query_handler (c : Crypto) (store : Store) (id : String) (key : Nat) :
    Except Error QueryState := do
  let channel ← get store id
  next_query c channel key

/-- Store-mutating events of the consumer-proxy channel store.  `query`
(`next_query`) reads a clone and never writes the store. -/
inductive ChannelEvent where
  | add (st : OpenInfo)
  | renew (cid : Nat) (state : QueryState)
  | query (id : String)

/-- One store transition per event. -/
def channelStep (store : Store) : ChannelEvent → Store
  | .add st => add store st
  | .renew cid state => renew store cid state
  | .query _ => store

/-- The store reached from the empty initial store by a list of events. -/
def runChannel (evs : List ChannelEvent) : Store :=
  evs.foldl channelStep []

end ConsumerPayg

/-! The P2P RPC behaviour (`src/p2p/behaviour/rpc/mod.rs`) and the node
event loop's handling of its events (`src/p2p/server.rs`). -/

/-- Source `Rpc::next_request_id`: returns the current counter value and
bumps it (`u64` wrap-around made explicit). -/
def next_request_id (n : Nat) : Nat × Nat := (n, (n + 1) % 2 ^ 64)

/-- Request ids produced by `k` successive `Rpc::request` calls when the
counter holds `n`; `Rpc::new` initializes the counter to 1. -/
def requestIdsFrom : Nat → Nat → List Nat
  | _, 0 => []
  | n, k + 1 => (next_request_id n).1 :: requestIdsFrom (next_request_id n).2 k

/-- `next_request_id: 1` in `Rpc::new`. -/
def rpcNewNextRequestId : Nat := 1

/-- Source `Response` of the RPC behaviour (payloads are `String`s). -/
inductive Response where
  | RawData (data : String)
  | Sign (sg : String)
  | Data (data : String) (sg : String)
  | StateChannel (infos : String)
  | Error (msg : String)
  deriving DecidableEq, Repr

/-- Source `OutboundFailure` kinds. -/
inductive OutboundFailureKind where
  | DialFailure
  | Timeout
  | ConnectionClosed
  | UnsupportedProtocols
  deriving DecidableEq, Repr

/-- Source `InboundFailure` kinds. -/
inductive InboundFailureKind where
  | Timeout
  | ConnectionClosed
  | UnsupportedProtocols
  | ResponseOmission
  deriving DecidableEq, Repr

/-- The `RpcEvent`s the node event loop consumes.  The inbound-request
arm performs network I/O and is not modelled. -/
inductive RpcEv where
  | ResponseMsg (peer : Nat) (request_id : Nat) (response : Response)
  | OutboundFailure (peer : Nat) (request_id : Nat) (error : OutboundFailureKind)
  | InboundFailure (peer : Nat) (request_id : Nat) (error : InboundFailureKind)
  | ResponseSent (peer : Nat) (request_id : Nat)
  deriving DecidableEq, Repr

/-- Source `rpc_response` (`src/p2p/rpc/helper.rs`). -/
def rpc_response (id : Nat) (method : String) (params : Json) : Json :=
  .obj [("jsonrpc", .str "2.0"), ("id", .num id), ("method", .str method),
    ("result", params)]

/-- Source `rpc_error` (`src/p2p/rpc/helper.rs`). -/
def rpc_error (id : Nat) (msg : String) : Json :=
  .obj [("jsonrpc", .str "2.0"), ("id", .num id),
    ("error", .obj [("code", .num 400), ("message", .str msg)])]

/-- Source `server` event-loop arms for `RpcEvent` (`src/p2p/server.rs`):
the `Response` arm builds a JSON-RPC reply and routes it to the stored
sync caller (removing the entry) or broadcasts to all WebSocket clients;
the `OutboundFailure`, `InboundFailure` and `ResponseSent` arms have
empty bodies.  Returns the new `sync_requests` map and the messages
pushed to the local JSON-RPC layer as `(uid, json, is_ws)`. -/
def handle_rpc_event (sync_requests : List (Nat × Nat × Bool)) (ev : RpcEv) :
    List (Nat × Nat × Bool) × List (Nat × Json × Bool) :=
  match ev with
  | .ResponseMsg _ request_id response =>
    let res := match response with
      | .RawData data => rpc_response 0 "query" (.str data)
      | .Sign sg => rpc_response 0 "sign" (.str sg)
      | .Data data sg => rpc_response 0 "query" (.arr [.str data, .str sg])
      | .Error msg => rpc_error 0 msg
      | .StateChannel infos => rpc_response 0 "state-channel" (.str infos)
    match sync_requests.find? (fun p => p.1 == request_id) with
    | some entry =>
      (sync_requests.filter (fun p => p.1 ≠ request_id), [(entry.2.1, res, entry.2.2)])
    | none => (sync_requests, [(0, res, true)])
  | .OutboundFailure _ _ _ => (sync_requests, [])
  | .InboundFailure _ _ _ => (sync_requests, [])
  | .ResponseSent _ _ => (sync_requests, [])

/-- Source `Connection` record of the RPC behaviour (the two pending-id
sets are modelled as lists). -/
structure Connection where
  id : Nat
  pending_outbound_responses : List Nat
  pending_inbound_responses : List Nat
  deriving DecidableEq, Repr

/-- The `Rpc` behaviour state the timeout path touches. -/
structure RpcState where
  connected : List (Nat × List Connection)
  pending_outbound_requests : List (Nat × List Nat)
  next_request_id : Nat
  deriving DecidableEq, Repr

/-- Source `Rpc::is_pending_outbound`: the id is pending on an established
connection or still queued awaiting a connection. -/
def is_pending_outbound (s : RpcState) (peer rid : Nat) : Bool :=
  let est_conn := ((s.connected.find? (fun p => p.1 == peer)).map
    (fun p => p.2.any (fun c => c.pending_inbound_responses.contains rid))).getD false
  let pen_conn := ((s.pending_outbound_requests.find? (fun p => p.1 == peer)).map
    (fun p => p.2.any (fun r => r == rid))).getD false
  est_conn || pen_conn

/-- Update the first connection with the given id. -/
def updateFirstConn (f : Connection → Connection) : List Connection → Nat → List Connection
  | [], _ => []
  | c :: rest, connId =>
    if c.id = connId then f c :: rest else c :: updateFirstConn f rest connId

/-- Update the first peer entry with the given peer id. -/
def updateFirstPeer (f : List Connection → List Connection) :
    List (Nat × List Connection) → Nat → List (Nat × List Connection)
  | [], _ => []
  | p :: rest, peer =>
    if p.1 = peer then (p.1, f p.2) :: rest else p :: updateFirstPeer f rest peer

/-- Source `Rpc::remove_pending_inbound_response` (via
`get_connection_mut`): removes the id from that connection's pending
inbound responses, reporting whether it was present. -/
def remove_pending_inbound_response (s : RpcState) (peer conn rid : Nat) :
    RpcState × Bool :=
  let present :=
    ((s.connected.find? (fun p => p.1 == peer)).map
      (fun p => ((p.2.find? (fun c => c.id == conn)).map
        (fun c => c.pending_inbound_responses.contains rid)).getD false)).getD false
  let connected2 := updateFirstPeer
    (fun conns => updateFirstConn
      (fun c =>
        { c with pending_inbound_responses :=
            c.pending_inbound_responses.filter (fun x => x ≠ rid) })
      conns conn)
    s.connected peer
  ({ s with connected := connected2 }, present)

/-- Source arm `RpcHandlerEvent::OutboundTimeout` of `Rpc::inject_event`:
remove the id from the pending inbound responses of the connection, then
emit `RpcEvent::OutboundFailure` with `OutboundFailure::Timeout` carrying
the same request id. -/
def inject_outbound_timeout (s : RpcState) (peer conn rid : Nat) : RpcState × RpcEv :=
  ((remove_pending_inbound_response s peer conn rid).1,
    .OutboundFailure peer rid .Timeout)

/-! The group behaviour message dedup (`src/p2p/behaviour/group/handler.rs`). -/

/-- Source `GroupMessage` (`group/mod.rs`); its derived `Hash` — the key
the dedup filter stores — covers all four fields. -/
structure GroupMessage where
  source : Nat
  group : String
  sequence : List Nat
  data : List Nat
  deriving DecidableEq, Repr

/-- The group-behaviour state the message loop touches: joined groups
with their peers, and the `received` dedup filter.  The bounded
`CuckooFilter` is modelled as an exact set of the hashed values (whole
messages) together with its `capacity`: `test_and_add` answers
`Ok(false)` on a recorded message, `Ok(true)` when there is room, and
`Err(NotEnoughSpace)` when the filter is full — in which case the new
message is still stored but the record of another message is evicted
(here the oldest; the crate evicts a kick-chain victim).  False
positives of the fingerprint hashing are not modelled. -/
structure GroupState where
  groups : List (String × List Nat)
  received : List GroupMessage
  capacity : Nat
  deriving DecidableEq, Repr

/-- Source `GroupEvent` variants the message loop can emit. -/
inductive GroupEv where
  | Message (msg : GroupMessage)
  | GroupJoin (peer : Nat) (group : String)
  | GroupLeave (peer : Nat) (group : String)
  deriving DecidableEq, Repr

/-- One iteration of the message loop of `Group::inject_event`
(handler.rs lines 377–397): when the message's group is joined, match on
`test_and_add` of the dedup filter — a message already present is
skipped (`Ok(false) => continue`); one newly recorded (`Ok(true)`) emits
`GroupEvent::Message`; and on `Err(CuckooError::NotEnoughSpace)` the
message is added with some other record evicted and the event is STILL
emitted (the source only logs a warning). -/
def groupMessageStep (acc : GroupState × List GroupEv) (m : GroupMessage) :
    GroupState × List GroupEv :=
  if acc.1.groups.any (fun g => g.1 == m.group) then
    if acc.1.received.contains m then acc
    else if acc.1.received.length < acc.1.capacity then
      ({ acc.1 with received := m :: acc.1.received }, acc.2 ++ [.Message m])
    else
      ({ acc.1 with received := m :: acc.1.received.dropLast }, acc.2 ++ [.Message m])
  else acc

/-- The whole message loop of one `inject_event` delivery. -/
def inject_group_messages (s : GroupState) (msgs : List GroupMessage) :
    GroupState × List GroupEv :=
  msgs.foldl groupMessageStep (s, [])

/-- One `inject_event` delivery inside a run: thread the state, collect
the events. -/
def groupBatchStep (acc : GroupState × List GroupEv) (batch : List GroupMessage) :
    GroupState × List GroupEv :=
  ((inject_group_messages acc.1 batch).1, acc.2 ++ (inject_group_messages acc.1 batch).2)

/-- Several `inject_event` deliveries in sequence, collecting all emitted
events. -/
def runGroupInjects (s : GroupState) (batches : List (List GroupMessage)) :
    GroupState × List GroupEv :=
  batches.foldl groupBatchStep (s, [])

/-! A concrete instantiation of the crypto interface, used to evaluate
the embedded code paths on closed inputs. -/

/-- A toy `Crypto`: `keccak` is the identity, a signature stores the key
in `r`, and recovery reads the first 32 bytes back.  It satisfies the
standard sign/recover correspondence and makes every embedded code path
computable on closed inputs. -/
def toyCrypto : Crypto :=
  { keccak := fun bs => bs
  , sign_message := fun k _ => some { r := k % 2 ^ 256, s := 0, v := 27 }
  , ecrecover := fun _ sig64 _ => some (bytesToNatBE (sig64.take 32))
  , address := fun k => k % 2 ^ 256 }

/-- The standard secp256k1 sign/recover correspondence for key `k` under
crypto `c`: signing any payload succeeds and recovering the produced
signature over the same payload yields `k`'s address. -/
def SignRecoverOk (c : Crypto) (k : Nat) : Prop :=
  ∀ p, ∃ sg, c.sign_message k p = some sg ∧
    c.ecrecover p (convert_recovery_sign sg).1 (convert_recovery_sign sg).2 =
      some (c.address k)

/-! Concrete example values used to evaluate the embedded code paths. -/

/-- A canonical signature with `v = 27`. -/
def exSigA : Sig := { r := 1, s := 2, v := 27 }

/-- A canonical signature with `v = 28`. -/
def exSigB : Sig := { r := 3, s := 4, v := 28 }

/-- A toy-crypto signature by key 3 (recovers to address 3). -/
def exSigKey3 : Sig := { r := 3, s := 0, v := 27 }

/-- A concrete canonical `OpenState` (utils variant). -/
def exOpen : OpenState :=
  { channel_id := 10, indexer := 1, consumer := 2, amount := 100, expiration := 86400
  , callback := [7, 8], indexer_sign := exSigA, consumer_sign := exSigB, next_price := 10 }

/-- A concrete canonical `QueryState`. -/
def exQuery : QueryState :=
  { channel_id := 10, indexer := 1, consumer := 2, count := 5, price := 10
  , is_final := false, indexer_sign := exSigA, consumer_sign := exSigB, next_price := 10 }

/-- A concrete `OpenState` for the `/open` route whose `consumer_sign` is
the toy signature of key 3 while the `consumer` field is address 1. -/
def exBadOpen : SrcPayg.OpenState :=
  { channel_id := 9, indexer := 1, consumer := 1, amount := 100, expiration := 86400
  , indexer_sign := default_sign, consumer_sign := exSigKey3, next_price := 0 }

/-- The JSON wire form of `exBadOpen` as the `POST /open` request body,
with the numeric fields written in their documented string forms. -/
def c1Body : Json :=
  .obj
    [ ("channelId", .str "0x9")
    , ("indexer", .str "0x0000000000000000000000000000000000000001")
    , ("consumer", .str "0x0000000000000000000000000000000000000001")
    , ("amount", .str "100")
    , ("expiration", .str "86400")
    , ("indexerSign", .str (convert_sign_to_string default_sign))
    , ("consumerSign", .str (convert_sign_to_string exSigKey3))
    , ("nextPrice", .str "0")
    ]

/-- The state `from_json` produces for `c1Body`: `exBadOpen` with the
indexer signature slot normalized to `v = 27` by the wire decoding. -/
def c1Parsed : SrcPayg.OpenState :=
  { exBadOpen with indexer_sign := { r := 0, s := 0, v := 27 } }

/-- `c1Parsed` after the handler's indexer countersign under `toyCrypto`
with key 7. -/
def c1Signed : SrcPayg.OpenState :=
  { c1Parsed with indexer_sign := { r := 7, s := 0, v := 27 } }

/-- A concrete channel-open record (deployment id byte `0xAB`). -/
def exOpenInfo : OpenInfo :=
  { channel_id := 10, indexer := 1, consumer := 2, amount := 100, expiration := 86400
  , deployment_id := [171], next_price := 10 }

/-- A peer `QueryState` carrying count 5. -/
def exQ5 : QueryState :=
  { channel_id := 10, indexer := 1, consumer := 2, count := 5, price := 10
  , is_final := false, indexer_sign := default_sign, consumer_sign := default_sign
  , next_price := 10 }

/-- A peer `QueryState` carrying count 3. -/
def exQ3 : QueryState :=
  { channel_id := 10, indexer := 1, consumer := 2, count := 3, price := 10
  , is_final := false, indexer_sign := default_sign, consumer_sign := default_sign
  , next_price := 10 }

/-- The channel record after `add exOpenInfo` then `renew` with `exQ5`. -/
def exCh5 : StateChannel :=
  { id := 10, status := .Open, indexer := 1, consumer := 2, current_count := 5
  , onchain_count := 0, remote_count := 5, balance := 100, expiration_at := 86400
  , challenge_at := 0, deployment_id := [171], last_final := false, last_price := 10
  , last_indexer_sign := default_sign, last_consumer_sign := default_sign }

/-- A consumer-side channel at count 9 with price 10 and deposit 100: the
next query is the one the spec expects to be final. -/
def exChannel9 : StateChannel :=
  { id := 10, status := .Open, indexer := 1, consumer := 2, current_count := 9
  , onchain_count := 0, remote_count := 9, balance := 100, expiration_at := 86400
  , challenge_at := 0, deployment_id := [171], last_final := false, last_price := 10
  , last_indexer_sign := default_sign, last_consumer_sign := default_sign }

/-- The same channel after the peer acknowledged a final state
(`last_final = true`, count 10): the spec expects further queries to be
rejected. -/
def exChannelFinal : StateChannel :=
  { exChannel9 with current_count := 10, remote_count := 10, last_final := true }

/-- A QueryState JSON whose signature strings are not valid hex. -/
def exBadSigJson : Json :=
  .obj
    [ ("channelId", .str "0xA")
    , ("indexer", .str (addrDebugStr 1))
    , ("consumer", .str (addrDebugStr 2))
    , ("count", .str "5")
    , ("price", .str "10")
    , ("isFinal", .bool false)
    , ("indexerSign", .str "zz")
    , ("consumerSign", .str "not-a-signature")
    , ("nextPrice", .str "10")
    ]

/-- An `OpenState` JSON (utils variant, with `callback`) whose signature
strings are not valid hex. -/
def exBadSigOpenJson : Json :=
  .obj
    [ ("channelId", .str "0xA")
    , ("indexer", .str (addrDebugStr 1))
    , ("consumer", .str (addrDebugStr 2))
    , ("amount", .str "100")
    , ("expiration", .str "86400")
    , ("callback", .str "0708")
    , ("indexerSign", .str "zz")
    , ("consumerSign", .str "not-a-signature")
    , ("nextPrice", .str "10")
    ]

/-- A group state joined to group `g` with no known peers; the filter
capacity is of the order of the crate's default (`1 << 20` entries). -/
def exGroupState : GroupState :=
  { groups := [("g", [])], received := [], capacity := 2 ^ 20 }

/-- A broadcast message from source 1 with sequence `[7]` and data `[0]`. -/
def exM1 : GroupMessage := { source := 1, group := "g", sequence := [7], data := [0] }

/-- Same source and sequence as `exM1`, different data. -/
def exM2 : GroupMessage := { source := 1, group := "g", sequence := [7], data := [1] }

/-- A group state that has already recorded `exM1`. -/
def exGroupStateR : GroupState :=
  { groups := [("g", [])], received := [exM1], capacity := 2 ^ 20 }

/-- A group state whose dedup filter holds a single entry, so that every
further add evicts: the smallest state exhibiting `NotEnoughSpace`. -/
def exGroupStateCap1 : GroupState :=
  { groups := [("g", [])], received := [], capacity := 1 }

/-- A connection with request id 5 awaiting a response. -/
def exConn : Connection :=
  { id := 1, pending_outbound_responses := [], pending_inbound_responses := [5] }

/-- An `Rpc` behaviour state with peer 2 connected over `exConn`. -/
def exRpcState : RpcState :=
  { connected := [(2, [exConn])], pending_outbound_requests := [], next_request_id := 1 }

-- ===== THEOREMS =====

/-! Round-trip facts about the byte, hex and decimal codecs. -/

theorem natToBytesBE_length (len n : Nat) : (natToBytesBE len n).length = len := by
  induction len generalizing n with
  | zero => rfl
  | succ k ih => simp [natToBytesBE, ih]

theorem natToBytesBE_mem_lt (len n : Nat) : ∀ b ∈ natToBytesBE len n, b < 256 := by
  induction len generalizing n with
  | zero => simp [natToBytesBE]
  | succ k ih =>
    intro b hb
    simp only [natToBytesBE, List.mem_append, List.mem_singleton] at hb
    rcases hb with h | h
    · exact ih _ _ h
    · omega

theorem bytesToNatBE_append_one (xs : List Nat) (b : Nat) :
    bytesToNatBE (xs ++ [b]) = bytesToNatBE xs * 256 + b := by
  simp [bytesToNatBE, List.foldl_append]

theorem bytesToNatBE_natToBytesBE (len n : Nat) :
    bytesToNatBE (natToBytesBE len n) = n % 256 ^ len := by
  induction len generalizing n with
  | zero => simp [natToBytesBE, bytesToNatBE, Nat.mod_one]
  | succ k ih =>
    rw [natToBytesBE, bytesToNatBE_append_one, ih]
    have hp : (256 : Nat) ^ (k + 1) = 256 * 256 ^ k := by ring
    rw [hp]
    have h : n % (256 * 256 ^ k) = n % 256 + 256 * (n / 256 % 256 ^ k) := Nat.mod_mul
    omega

theorem hexDigitVal?_hexDigitLower : ∀ n, n < 16 → hexDigitVal? (hexDigitLower n) = some n := by
  decide

theorem hexDigitVal?_hexDigitUpper : ∀ n, n < 16 → hexDigitVal? (hexDigitUpper n) = some n := by
  decide

theorem hexEncodeChars_length (bs : List Nat) :
    (hexEncodeChars bs).length = 2 * bs.length := by
  induction bs with
  | nil => rfl
  | cons b tl ih => simp [hexEncodeChars, List.flatMap_cons] at ih ⊢; omega

theorem hexDecodeChars?_hexEncodeChars (bs : List Nat) (hb : ∀ b ∈ bs, b < 256) :
    hexDecodeChars? (hexEncodeChars bs) = some bs := by
  induction bs with
  | nil => rfl
  | cons b tl ih =>
    have hblt : b < 256 := hb b (by simp)
    have hhi : b / 16 < 16 := by omega
    have hlo : b % 16 < 16 := by omega
    have htl : hexDecodeChars? (hexEncodeChars tl) = some tl :=
      ih (fun x hx => hb x (by simp [hx]))
    simp only [hexEncodeChars, List.flatMap_cons, List.cons_append, List.nil_append] at htl ⊢
    simp [hexDecodeChars?, hexDigitVal?_hexDigitLower _ hhi,
      hexDigitVal?_hexDigitLower _ hlo, htl]
    omega

theorem decDigits_lt (n : Nat) : ∀ d ∈ decDigits n, d < 10 := by
  induction n using decDigits.induct with
  | case1 n h => intro d hd; rw [decDigits] at hd; simp [h] at hd; omega
  | case2 n h ih =>
    intro d hd
    rw [decDigits] at hd
    simp only [h, dite_false, List.mem_append, List.mem_singleton] at hd
    rcases hd with hd | hd
    · exact ih d hd
    · omega

theorem parseDecChars?_append (xs ys : List Char) (acc : Nat) :
    parseDecChars? (xs ++ ys) acc =
      (parseDecChars? xs acc).bind (parseDecChars? ys) := by
  induction xs generalizing acc with
  | nil => simp [parseDecChars?]
  | cons c rest ih =>
    simp only [List.cons_append, parseDecChars?]
    split
    · split
      · exact ih _
      · simp
    · simp

theorem digitChar_isDigit_val :
    ∀ d, d < 10 → (Nat.digitChar d).isDigit = true ∧ (Nat.digitChar d).toNat - 48 = d := by
  decide

set_option maxRecDepth 4000 in
theorem parseDec_decDigits (n : Nat) :
    ∀ acc, acc * 10 ^ (decDigits n).length + n < 2 ^ 256 →
      parseDecChars? ((decDigits n).map Nat.digitChar) acc =
        some (acc * 10 ^ (decDigits n).length + n) := by
  induction n using decDigits.induct with
  | case1 n h =>
    intro acc hacc
    have hdig := digitChar_isDigit_val n h
    rw [decDigits] at hacc ⊢
    simp only [h, dite_true, List.length_cons, List.length_nil, Nat.zero_add, pow_one]
      at hacc ⊢
    simp only [List.map_cons, List.map_nil, parseDecChars?, hdig.1, hdig.2, if_true]
    rw [if_pos hacc]
  | case2 n h ih =>
    intro acc hacc
    rw [decDigits] at hacc ⊢
    simp only [h, dite_false] at hacc ⊢
    rw [List.map_append, parseDecChars?_append]
    simp only [List.length_append, List.length_cons, List.length_nil, Nat.add_zero,
      Nat.zero_add] at hacc ⊢
    have hp : (10 : Nat) ^ ((decDigits (n / 10)).length + 1) =
        10 ^ (decDigits (n / 10)).length * 10 := pow_succ 10 _
    rw [hp, ← mul_assoc] at hacc ⊢
    have hB : acc * 10 ^ (decDigits (n / 10)).length + n / 10 < 2 ^ 256 := by
      generalize acc * 10 ^ (decDigits (n / 10)).length = B at hacc ⊢
      omega
    rw [ih acc hB]
    have hdig := digitChar_isDigit_val (n % 10) (by omega)
    simp only [Option.some_bind, List.map_cons, List.map_nil, parseDecChars?, hdig.1,
      hdig.2, if_true]
    have hkey : (acc * 10 ^ (decDigits (n / 10)).length + n / 10) * 10 + n % 10 =
        acc * 10 ^ (decDigits (n / 10)).length * 10 + n := by
      generalize acc * 10 ^ (decDigits (n / 10)).length = B
      omega
    rw [hkey, if_pos hacc]

theorem from_dec_str?_natToDecStr (n : Nat) (h : n < 2 ^ 256) :
    from_dec_str? (natToDecStr n) = some n := by
  have := parseDec_decDigits n 0 (by simpa using h)
  simpa [from_dec_str?, natToDecStr] using this

theorem parseHexChars?_append (xs ys : List Char) (acc : Nat) :
    parseHexChars? (xs ++ ys) acc =
      (parseHexChars? xs acc).bind (fun a => parseHexChars? ys a) := by
  induction xs generalizing acc with
  | nil => simp [parseHexChars?]
  | cons c rest ih =>
    simp only [List.cons_append, parseHexChars?]
    cases hexDigitVal? c with
    | none => simp
    | some v => simp [ih]

theorem parseHex_hexDigitsMin (n : Nat) :
    ∀ acc, parseHexChars? ((hexDigitsMin n).map hexDigitUpper) acc =
      some (acc * 16 ^ (hexDigitsMin n).length + n) := by
  induction n using hexDigitsMin.induct with
  | case1 n h =>
    intro acc
    rw [hexDigitsMin]
    simp only [h, dite_true, List.map_cons, List.map_nil, List.length_cons,
      List.length_nil, Nat.zero_add, pow_one, parseHexChars?]
    rw [hexDigitVal?_hexDigitUpper n (by omega)]
    rfl
  | case2 n h ih =>
    intro acc
    rw [hexDigitsMin]
    simp only [h, dite_false, List.map_append, List.length_append, List.length_cons,
      List.length_nil, Nat.add_zero, Nat.zero_add]
    rw [parseHexChars?_append, ih acc]
    simp only [Option.some_bind, List.map_cons, List.map_nil, parseHexChars?]
    rw [hexDigitVal?_hexDigitUpper (n % 16) (by omega)]
    have hp : (16 : Nat) ^ ((hexDigitsMin (n / 16)).length + 1) =
        16 ^ (hexDigitsMin (n / 16)).length * 16 := pow_succ 16 _
    rw [hp, ← mul_assoc]
    have hkey : (acc * 16 ^ (hexDigitsMin (n / 16)).length + n / 16) * 16 + n % 16 =
        acc * 16 ^ (hexDigitsMin (n / 16)).length * 16 + n := by
      generalize acc * 16 ^ (hexDigitsMin (n / 16)).length = B
      omega
    simp [parseHexChars?, hkey]

theorem hexDigitsMin_length_le : ∀ n k, 0 < k → n < 16 ^ k → (hexDigitsMin n).length ≤ k := by
  intro n
  induction n using hexDigitsMin.induct with
  | case1 n h =>
    intro k hk _
    rw [hexDigitsMin]
    simp [h]
    omega
  | case2 n h ih =>
    intro k hk hn
    rw [hexDigitsMin]
    simp only [h, dite_false, List.length_append, List.length_cons, List.length_nil,
      Nat.add_zero, Nat.zero_add]
    have hk2 : 2 ≤ k := by
      by_contra hcon
      have hk1 : k = 1 := by omega
      subst hk1
      simp only [pow_one] at hn
      omega
    have hdiv : n / 16 < 16 ^ (k - 1) := by
      have hpow : 16 ^ (k - 1) * 16 = 16 ^ k := by
        have hk1 : k - 1 + 1 = k := by omega
        calc 16 ^ (k - 1) * 16 = 16 ^ (k - 1 + 1) := (pow_succ 16 (k - 1)).symm
          _ = 16 ^ k := by rw [hk1]
      rw [Nat.div_lt_iff_lt_mul (by omega : 0 < 16), hpow]
      exact hn
    have := ih (k - 1) (by omega) hdiv
    omega

theorem u256_from_str?_natToHexUpper0x (n : Nat) (h : n < 2 ^ 256) :
    u256_from_str? (natToHexUpper0x n) = some n := by
  have h16 : n < 16 ^ 64 := by
    have hpow : (16 : Nat) ^ 64 = 2 ^ 256 := by norm_num
    omega
  have hlen : ((hexDigitsMin n).map hexDigitUpper).length ≤ 64 := by
    rw [List.length_map]
    exact hexDigitsMin_length_le n 64 (by omega) h16
  have hdata : (natToHexUpper0x n).data = '0' :: 'x' :: (hexDigitsMin n).map hexDigitUpper :=
    rfl
  have hstrip : strip0x ('0' :: 'x' :: (hexDigitsMin n).map hexDigitUpper) =
      (hexDigitsMin n).map hexDigitUpper := by simp only [strip0x]
  simp only [u256_from_str?, hdata, hstrip]
  rw [if_pos hlen, parseHex_hexDigitsMin n 0]
  simp

theorem address_from_str?_addrDebugStr (a : Nat) (h : a < 2 ^ 160) :
    address_from_str? (addrDebugStr a) = some a := by
  have hdata : (addrDebugStr a).data = '0' :: 'x' :: hexEncodeChars (natToBytesBE 20 a) := by
    simp [addrDebugStr, hexEncode, String.data_append]
  have hstrip : strip0x ('0' :: 'x' :: hexEncodeChars (natToBytesBE 20 a)) =
      hexEncodeChars (natToBytesBE 20 a) := by simp only [strip0x]
  have hlen : (hexEncodeChars (natToBytesBE 20 a)).length = 40 := by
    rw [hexEncodeChars_length, natToBytesBE_length]
  have hdec : hexDecodeChars? (hexEncodeChars (natToBytesBE 20 a)) =
      some (natToBytesBE 20 a) :=
    hexDecodeChars?_hexEncodeChars _ (natToBytesBE_mem_lt 20 a)
  simp only [address_from_str?, hdata, hstrip]
  rw [if_pos hlen, hdec]
  simp only [Option.map_some']
  rw [bytesToNatBE_natToBytesBE]
  have hpow : (256 : Nat) ^ 20 = 2 ^ 160 := by norm_num
  rw [hpow]
  exact congrArg some (Nat.mod_eq_of_lt h)

/-! Round-trip of states through their JSON wire form. -/

theorem ok_bind {α β : Type} (a : α) (f : α → Except Error β) :
    (Except.ok a : Except Error α) >>= f = f a := rfl

theorem hexEncode_data (bs : List Nat) : (hexEncode bs).data = hexEncodeChars bs := rfl

theorem convert_sign_roundtrip (sig : Sig) (h : sig.Canonical) :
    convert_string_to_sign (convert_sign_to_string sig) = sig := by
  obtain ⟨hr, hs, hv⟩ := h
  have hvb : ((if sig.v = 27 then 0
      else if sig.v = 28 then 1
      else if 35 ≤ sig.v then (sig.v - 1) % 2
      else sig.v % 256) + 27) % 256 = sig.v := by
    rcases hv with h | h <;> (rw [h]; decide)
  have hbytes : convert_sign_to_bytes sig =
      natToBytesBE 32 sig.r ++ natToBytesBE 32 sig.s ++ [sig.v] := by
    rw [convert_sign_to_bytes]
    simp only [hvb]
  have hmem : ∀ b ∈ convert_sign_to_bytes sig, b < 256 := by
    rw [hbytes]
    intro b hb
    simp only [List.mem_append, List.mem_singleton] at hb
    rcases hb with (hb | hb) | hb
    · exact natToBytesBE_mem_lt 32 sig.r b hb
    · exact natToBytesBE_mem_lt 32 sig.s b hb
    · omega
  have hdec : hexDecode? (convert_sign_to_string sig) = some (convert_sign_to_bytes sig) := by
    rw [convert_sign_to_string, hexDecode?, hexEncode_data]
    exact hexDecodeChars?_hexEncodeChars _ hmem
  have hlr : (natToBytesBE 32 sig.r).length = 32 := natToBytesBE_length 32 sig.r
  have hls : (natToBytesBE 32 sig.s).length = 32 := natToBytesBE_length 32 sig.s
  have hlen : (convert_sign_to_bytes sig).length = 65 := by
    rw [hbytes]
    simp [hlr, hls]
  rw [convert_string_to_sign, hdec]
  simp only [Option.getD_some]
  rw [if_neg (by omega)]
  rw [hbytes, List.append_assoc]
  have htake : (natToBytesBE 32 sig.r ++ (natToBytesBE 32 sig.s ++ [sig.v])).take 32 =
      natToBytesBE 32 sig.r := List.take_left' hlr
  have hdrop : (natToBytesBE 32 sig.r ++ (natToBytesBE 32 sig.s ++ [sig.v])).drop 32 =
      natToBytesBE 32 sig.s ++ [sig.v] := List.drop_left' hlr
  have htake2 : (natToBytesBE 32 sig.s ++ [sig.v]).take 32 = natToBytesBE 32 sig.s :=
    List.take_left' hls
  have hgetD : (natToBytesBE 32 sig.r ++ (natToBytesBE 32 sig.s ++ [sig.v])).getD 64 0
      = sig.v := by
    rw [← List.append_assoc]
    have hlen64 : (natToBytesBE 32 sig.r ++ natToBytesBE 32 sig.s).length = 64 := by
      simp [hlr, hls]
    have := List.getD_append_right (natToBytesBE 32 sig.r ++ natToBytesBE 32 sig.s)
      [sig.v] 0 64 (by omega)
    rw [this, hlen64]
    rfl
  rw [htake, hdrop, htake2, hgetD]
  have h256 : (256 : Nat) ^ 32 = 2 ^ 256 := by norm_num
  have hvr : bytesToNatBE (natToBytesBE 32 sig.r) = sig.r := by
    rw [bytesToNatBE_natToBytesBE, h256]
    exact Nat.mod_eq_of_lt hr
  have hvs : bytesToNatBE (natToBytesBE 32 sig.s) = sig.s := by
    rw [bytesToNatBE_natToBytesBE, h256]
    exact Nat.mod_eq_of_lt hs
  rw [hvr, hvs]

theorem QueryState.from_json_to_json_query (st : QueryState) (h : st.Wf) :
    QueryState.from_json st.to_json = .ok st := by
  obtain ⟨h1, h2, h3, h4, h5, h6, h7, h8⟩ := h
  have e1 : st.to_json.index "channelId" = Json.str (natToHexUpper0x st.channel_id) := rfl
  have e2 : st.to_json.index "indexer" = Json.str (addrDebugStr st.indexer) := rfl
  have e3 : st.to_json.index "consumer" = Json.str (addrDebugStr st.consumer) := rfl
  have e4 : st.to_json.index "count" = Json.str (natToDecStr st.count) := rfl
  have e5 : st.to_json.index "price" = Json.str (natToDecStr st.price) := rfl
  have e6 : st.to_json.index "isFinal" = Json.bool st.is_final := rfl
  have e7 : st.to_json.index "indexerSign" =
      Json.str (convert_sign_to_string st.indexer_sign) := rfl
  have e8 : st.to_json.index "consumerSign" =
      Json.str (convert_sign_to_string st.consumer_sign) := rfl
  have e9 : st.to_json.index "nextPrice" = Json.str (natToDecStr st.next_price) := rfl
  rw [QueryState.from_json]
  simp only [e1, e2, e3, e4, e5, e6, e7, e8, e9, Json.asStr, Json.asBool, orSerialize,
    u256_from_str?_natToHexUpper0x _ h1, address_from_str?_addrDebugStr _ h2,
    address_from_str?_addrDebugStr _ h3, from_dec_str?_natToDecStr _ h4,
    from_dec_str?_natToDecStr _ h5, from_dec_str?_natToDecStr _ h6,
    convert_sign_roundtrip _ h7, convert_sign_roundtrip _ h8, ok_bind]

theorem OpenState.from_json_to_json_open (st : OpenState) (h : st.Wf) :
    OpenState.from_json st.to_json = .ok st := by
  obtain ⟨h1, h2, h3, h4, h5, h6, hcb, h7, h8⟩ := h
  have e1 : st.to_json.index "channelId" = Json.str (natToHexUpper0x st.channel_id) := rfl
  have e2 : st.to_json.index "indexer" = Json.str (addrDebugStr st.indexer) := rfl
  have e3 : st.to_json.index "consumer" = Json.str (addrDebugStr st.consumer) := rfl
  have e4 : st.to_json.index "amount" = Json.str (natToDecStr st.amount) := rfl
  have e5 : st.to_json.index "expiration" = Json.str (natToDecStr st.expiration) := rfl
  have e6 : st.to_json.index "callback" = Json.str (hexEncode st.callback) := rfl
  have e7 : st.to_json.index "indexerSign" =
      Json.str (convert_sign_to_string st.indexer_sign) := rfl
  have e8 : st.to_json.index "consumerSign" =
      Json.str (convert_sign_to_string st.consumer_sign) := rfl
  have e9 : st.to_json.index "nextPrice" = Json.str (natToDecStr st.next_price) := rfl
  have ecb : hexDecode? (hexEncode st.callback) = some st.callback := by
    rw [hexDecode?, hexEncode_data]
    exact hexDecodeChars?_hexEncodeChars _ hcb
  rw [OpenState.from_json]
  simp only [e1, e2, e3, e4, e5, e6, e7, e8, e9, Json.asStr, Json.asBool, orSerialize,
    u256_from_str?_natToHexUpper0x _ h1, address_from_str?_addrDebugStr _ h2,
    address_from_str?_addrDebugStr _ h3, from_dec_str?_natToDecStr _ h4,
    from_dec_str?_natToDecStr _ h5, from_dec_str?_natToDecStr _ h6, ecb,
    convert_sign_roundtrip _ h7, convert_sign_roundtrip _ h8, ok_bind]

/-! Claim C5 and its witness. -/

/-- C5: for every valid `OpenState` and `QueryState` in canonical form
(signature `v` values already normalized to 27/28), `from_json (to_json S)`
succeeds and returns a state equal to `S` field for field over the
documented JSON keys. -/
theorem c5_json_roundtrip (o : OpenState) (q : QueryState) (ho : o.Wf) (hq : q.Wf) :
    OpenState.from_json o.to_json = .ok o ∧ QueryState.from_json q.to_json = .ok q :=
  ⟨OpenState.from_json_to_json_open o ho, QueryState.from_json_to_json_query q hq⟩

/-- Witness for C5: the round-trip evaluated at concrete canonical states. -/
theorem c5_json_roundtrip_witness :
    (OpenState.Wf exOpen ∧ QueryState.Wf exQuery) ∧
      (OpenState.from_json exOpen.to_json = .ok exOpen ∧
        QueryState.from_json exQuery.to_json = .ok exQuery) := by
  have ho : OpenState.Wf exOpen := by
    unfold OpenState.Wf Sig.Canonical
    decide
  have hq : QueryState.Wf exQuery := by
    unfold QueryState.Wf Sig.Canonical
    decide
  exact ⟨⟨ho, hq⟩, c5_json_roundtrip exOpen exQuery ho hq⟩

/-! Claim C9 and its witness. -/

theorem requestIdsFrom_eq (k : Nat) : ∀ n, n + k ≤ 2 ^ 64 →
    requestIdsFrom n k = List.range' n k := by
  induction k with
  | zero => intro n _; rfl
  | succ k ih =>
    intro n hn
    rw [requestIdsFrom]
    simp only [next_request_id]
    rcases Nat.eq_zero_or_pos k with hk0 | hkpos
    · subst hk0
      simp [requestIdsFrom, List.range']
    · have h1 : (n + 1) % 2 ^ 64 = n + 1 := Nat.mod_eq_of_lt (by omega)
      rw [h1, ih (n + 1) (by omega)]
      simp [List.range']

/-- C9: starting from `Rpc::new` (counter 1), `k` successive `request`
calls return the ids `1, 2, …, k` in call order, and these ids are
pairwise distinct — so no two concurrently pending outbound requests of
one node share an id (within the u64 range of the counter). -/
theorem c9_request_id_monotonic (k : Nat) (hk : k < 2 ^ 64) :
    requestIdsFrom rpcNewNextRequestId k = List.range' 1 k ∧
      (requestIdsFrom rpcNewNextRequestId k).Nodup := by
  have h := requestIdsFrom_eq k 1 (by omega)
  rw [rpcNewNextRequestId]
  exact ⟨h, h ▸ List.nodup_range' 1 k 1 Nat.one_pos⟩

/-- Witness for C9 at `k = 3`: the ids are `[1, 2, 3]`. -/
theorem c9_request_id_monotonic_witness :
    3 < 2 ^ 64 ∧
      (requestIdsFrom rpcNewNextRequestId 3 = List.range' 1 3 ∧
        (requestIdsFrom rpcNewNextRequestId 3).Nodup) :=
  ⟨by norm_num, c9_request_id_monotonic 3 (by norm_num)⟩

/-! Claim C4 and its witness. -/

/-- C4: for every state and key, `sign(S, K, role)` writes K's signature
over the canonical keccak256 EIP-191 payload into exactly the role's
signature slot (the returned state is the structure update of that one
slot), and — under the standard secp256k1 sign/recover correspondence —
`recover` then yields K's address in that role's component (the opposite
slot recovering to whatever address its own signature gives). -/
theorem c4_sign_recover_roundtrip
    (c : Crypto) (k : Nat) (q : QueryState) (o : OpenState) (aqI aqC aoI aoC : Nat)
    (hk : SignRecoverOk c k)
    (hqI : c.ecrecover (q.payload c) (convert_recovery_sign q.indexer_sign).1
      (convert_recovery_sign q.indexer_sign).2 = some aqI)
    (hqC : c.ecrecover (q.payload c) (convert_recovery_sign q.consumer_sign).1
      (convert_recovery_sign q.consumer_sign).2 = some aqC)
    (hoI : c.ecrecover (o.payload c) (convert_recovery_sign o.indexer_sign).1
      (convert_recovery_sign o.indexer_sign).2 = some aoI)
    (hoC : c.ecrecover (o.payload c) (convert_recovery_sign o.consumer_sign).1
      (convert_recovery_sign o.consumer_sign).2 = some aoC) :
    ∃ sgq sgo,
      c.sign_message k (q.payload c) = some sgq ∧
      c.sign_message k (o.payload c) = some sgo ∧
      QueryState.sign c k q true = .ok { q with consumer_sign := sgq } ∧
      QueryState.sign c k q false = .ok { q with indexer_sign := sgq } ∧
      QueryState.recover c { q with consumer_sign := sgq } = .ok (aqI, c.address k) ∧
      QueryState.recover c { q with indexer_sign := sgq } = .ok (c.address k, aqC) ∧
      OpenState.sign c k o true = .ok { o with consumer_sign := sgo } ∧
      OpenState.sign c k o false = .ok { o with indexer_sign := sgo } ∧
      OpenState.recover c { o with consumer_sign := sgo } = .ok (aoI, c.address k) ∧
      OpenState.recover c { o with indexer_sign := sgo } = .ok (c.address k, aoC) := by
  obtain ⟨sgq, hsgq, hrecq⟩ := hk (q.payload c)
  obtain ⟨sgo, hsgo, hreco⟩ := hk (o.payload c)
  have hpayqc : QueryState.payload c { q with consumer_sign := sgq } =
      QueryState.payload c q := rfl
  have hpayqi : QueryState.payload c { q with indexer_sign := sgq } =
      QueryState.payload c q := rfl
  have hpayoc : OpenState.payload c { o with consumer_sign := sgo } =
      OpenState.payload c o := rfl
  have hpayoi : OpenState.payload c { o with indexer_sign := sgo } =
      OpenState.payload c o := rfl
  refine ⟨sgq, sgo, hsgq, hsgo, ?_, ?_, ?_, ?_, ?_, ?_, ?_, ?_⟩
  · simp [QueryState.sign, hsgq, orInvalidSig, ok_bind]
  · simp [QueryState.sign, hsgq, orInvalidSig, ok_bind]
  · simp [QueryState.recover, hpayqc, hqI, hrecq, orInvalidSig, ok_bind]
  · simp [QueryState.recover, hpayqi, hqC, hrecq, orInvalidSig, ok_bind]
  · simp [OpenState.sign, hsgo, orInvalidSig, ok_bind]
  · simp [OpenState.sign, hsgo, orInvalidSig, ok_bind]
  · simp [OpenState.recover, hpayoc, hoI, hreco, orInvalidSig, ok_bind]
  · simp [OpenState.recover, hpayoi, hoC, hreco, orInvalidSig, ok_bind]

/-- Witness for C4: the toy crypto with key 5 on the concrete states
(`exSigA` recovers to 1, `exSigB` to 3 under the toy recovery). -/
theorem c4_sign_recover_roundtrip_witness :
    SignRecoverOk toyCrypto 5 ∧
    (toyCrypto.ecrecover (exQuery.payload toyCrypto)
        (convert_recovery_sign exQuery.indexer_sign).1
        (convert_recovery_sign exQuery.indexer_sign).2 = some 1) ∧
    (∃ sgq sgo,
      toyCrypto.sign_message 5 (exQuery.payload toyCrypto) = some sgq ∧
      toyCrypto.sign_message 5 (exOpen.payload toyCrypto) = some sgo ∧
      QueryState.sign toyCrypto 5 exQuery true = .ok { exQuery with consumer_sign := sgq } ∧
      QueryState.sign toyCrypto 5 exQuery false = .ok { exQuery with indexer_sign := sgq } ∧
      QueryState.recover toyCrypto { exQuery with consumer_sign := sgq } =
        .ok (1, toyCrypto.address 5) ∧
      QueryState.recover toyCrypto { exQuery with indexer_sign := sgq } =
        .ok (toyCrypto.address 5, 3) ∧
      OpenState.sign toyCrypto 5 exOpen true = .ok { exOpen with consumer_sign := sgo } ∧
      OpenState.sign toyCrypto 5 exOpen false = .ok { exOpen with indexer_sign := sgo } ∧
      OpenState.recover toyCrypto { exOpen with consumer_sign := sgo } =
        .ok (1, toyCrypto.address 5) ∧
      OpenState.recover toyCrypto { exOpen with indexer_sign := sgo } =
        .ok (toyCrypto.address 5, 3)) := by
  have hk : SignRecoverOk toyCrypto 5 := by
    intro p
    exact ⟨{ r := 5, s := 0, v := 27 }, rfl, rfl⟩
  have hqI : toyCrypto.ecrecover (exQuery.payload toyCrypto)
      (convert_recovery_sign exQuery.indexer_sign).1
      (convert_recovery_sign exQuery.indexer_sign).2 = some 1 := rfl
  have hqC : toyCrypto.ecrecover (exQuery.payload toyCrypto)
      (convert_recovery_sign exQuery.consumer_sign).1
      (convert_recovery_sign exQuery.consumer_sign).2 = some 3 := rfl
  have hoI : toyCrypto.ecrecover (exOpen.payload toyCrypto)
      (convert_recovery_sign exOpen.indexer_sign).1
      (convert_recovery_sign exOpen.indexer_sign).2 = some 1 := rfl
  have hoC : toyCrypto.ecrecover (exOpen.payload toyCrypto)
      (convert_recovery_sign exOpen.consumer_sign).1
      (convert_recovery_sign exOpen.consumer_sign).2 = some 3 := rfl
  exact ⟨hk, hqI,
    c4_sign_recover_roundtrip toyCrypto 5 exQuery exOpen 1 3 1 3 hk hqI hqC hoI hoC⟩

/-! Claim C10 and its witness. -/

/-- C10: the `QueryState` signing payload depends only on `(channel_id,
count, price, is_final)` — two states agreeing on those four fields and
the signature slots produce the same payload, the same signature from
`sign_message`, and the same `recover` result, even when `indexer`,
`consumer` or `next_price` differ; in particular the indexer proxy's
`next_price` overwrite (and subsequent indexer countersign) leaves the
consumer slot's recovery unchanged. -/
theorem c10_payload_core_fields
    (c : Crypto) (k p : Nat) (s1 s2 : QueryState) (sg : Sig)
    (hcid : s1.channel_id = s2.channel_id) (hcount : s1.count = s2.count)
    (hprice : s1.price = s2.price) (hfin : s1.is_final = s2.is_final)
    (hisig : s1.indexer_sign = s2.indexer_sign)
    (hcsig : s1.consumer_sign = s2.consumer_sign) :
    QueryState.payload c s1 = QueryState.payload c s2 ∧
    c.sign_message k (QueryState.payload c s1) =
      c.sign_message k (QueryState.payload c s2) ∧
    QueryState.recover c s1 = QueryState.recover c s2 ∧
    QueryState.recover c { s1 with next_price := p } = QueryState.recover c s1 ∧
    c.ecrecover (QueryState.payload c { s1 with next_price := p, indexer_sign := sg })
        (convert_recovery_sign
          ({ s1 with next_price := p, indexer_sign := sg }).consumer_sign).1
        (convert_recovery_sign
          ({ s1 with next_price := p, indexer_sign := sg }).consumer_sign).2 =
      c.ecrecover (QueryState.payload c s1)
        (convert_recovery_sign s1.consumer_sign).1
        (convert_recovery_sign s1.consumer_sign).2 := by
  have hpay : QueryState.payload c s1 = QueryState.payload c s2 := by
    unfold QueryState.payload QueryState.abiMsg
    rw [hcid, hcount, hprice, hfin]
  refine ⟨hpay, by rw [hpay], ?_, rfl, rfl⟩
  simp only [QueryState.recover, hpay, hisig, hcsig]

/-- Witness for C10: two states agreeing on the four payload fields and
the signature slots but differing in `indexer`, `consumer` and
`next_price`. -/
theorem c10_payload_core_fields_witness :
    (exQuery.channel_id = ({ exQuery with indexer := 8, consumer := 9, next_price := 77 }
        : QueryState).channel_id) ∧
    (QueryState.payload toyCrypto exQuery =
      QueryState.payload toyCrypto { exQuery with indexer := 8, consumer := 9, next_price := 77 } ∧
    toyCrypto.sign_message 5 (QueryState.payload toyCrypto exQuery) =
      toyCrypto.sign_message 5
        (QueryState.payload toyCrypto { exQuery with indexer := 8, consumer := 9, next_price := 77 }) ∧
    QueryState.recover toyCrypto exQuery =
      QueryState.recover toyCrypto { exQuery with indexer := 8, consumer := 9, next_price := 77 } ∧
    QueryState.recover toyCrypto { exQuery with next_price := 42 } =
      QueryState.recover toyCrypto exQuery ∧
    toyCrypto.ecrecover
        (QueryState.payload toyCrypto { exQuery with next_price := 42, indexer_sign := exSigKey3 })
        (convert_recovery_sign
          ({ exQuery with next_price := 42, indexer_sign := exSigKey3 }).consumer_sign).1
        (convert_recovery_sign
          ({ exQuery with next_price := 42, indexer_sign := exSigKey3 }).consumer_sign).2 =
      toyCrypto.ecrecover (QueryState.payload toyCrypto exQuery)
        (convert_recovery_sign exQuery.consumer_sign).1
        (convert_recovery_sign exQuery.consumer_sign).2) :=
  ⟨rfl, c10_payload_core_fields toyCrypto 5 42 exQuery
    { exQuery with indexer := 8, consumer := 9, next_price := 77 } exSigKey3
    rfl rfl rfl rfl rfl rfl⟩

/-! Claim C3: counterexample, amended theorem and witness. -/

theorem renewUpdate_onchain (ch : StateChannel) (qs : QueryState) :
    (ConsumerPayg.renewUpdate ch qs).onchain_count = ch.onchain_count := rfl

theorem channelStep_onchain (store : ConsumerPayg.Store) (ev : ConsumerPayg.ChannelEvent)
    (h : ∀ p ∈ store, p.2.onchain_count = 0) :
    ∀ p ∈ ConsumerPayg.channelStep store ev, p.2.onchain_count = 0 := by
  cases ev with
  | add st =>
    intro p hp
    simp only [ConsumerPayg.channelStep, ConsumerPayg.add, List.mem_append,
      List.mem_singleton] at hp
    rcases hp with hp | hp
    · exact h p (List.mem_of_mem_filter hp)
    · subst hp; rfl
  | renew cid qs =>
    intro p hp
    simp only [ConsumerPayg.channelStep, ConsumerPayg.renew, List.mem_map] at hp
    obtain ⟨q, hq, hpq⟩ := hp
    split at hpq
    · rw [← hpq]
      exact h q hq
    · rw [← hpq]
      exact h q hq
  | query _ => exact h

theorem runChannel_onchain (evs : List ConsumerPayg.ChannelEvent) :
    ∀ p ∈ ConsumerPayg.runChannel evs, p.2.onchain_count = 0 := by
  have main : ∀ (l : List ConsumerPayg.ChannelEvent) (store : ConsumerPayg.Store),
      (∀ p ∈ store, p.2.onchain_count = 0) →
      ∀ p ∈ l.foldl ConsumerPayg.channelStep store, p.2.onchain_count = 0 := by
    intro l
    induction l with
    | nil => intro store h; simpa using h
    | cons e rest ih =>
      intro store h
      exact ih _ (channelStep_onchain store e h)
  exact main evs [] (by simp)

/-- Counterexample to C3 as stated: from the empty store, `add` then a
renew whose peer state carries count 5 yields `current_count = 5`; a
further renew whose peer state carries count 3 overwrites it to 3 — the
channel's `current_count` decreases on a reachable sequence. -/
theorem c3_counterexample :
    (ConsumerPayg.runChannel
        [.add exOpenInfo, .renew 10 exQ5]).map (fun p => p.2.current_count) = [5] ∧
      (ConsumerPayg.runChannel
        [.add exOpenInfo, .renew 10 exQ5, .renew 10 exQ3]).map
          (fun p => p.2.current_count) = [3] := by
  constructor <;> rfl

/-- C3 (amended): `onchain_count ≤ current_count` (indeed `onchain_count`
stays 0) holds in every store reachable by add / next_query / renew
events; `next_query` never mutates the store; but `current_count` is not
non-decreasing — `renew` overwrites both `current_count` and
`remote_count` with the peer's `state.count`, whatever it is (each touched
entry gets exactly the peer's count, untouched entries are unchanged). -/
theorem c3_channel_counters (evs : List ConsumerPayg.ChannelEvent) :
    (∀ p ∈ ConsumerPayg.runChannel evs, p.2.onchain_count ≤ p.2.current_count) ∧
    (∀ (store : ConsumerPayg.Store) (id : String),
      ConsumerPayg.channelStep store (.query id) = store) ∧
    (∀ (store : ConsumerPayg.Store) (cid : Nat) (qs : QueryState),
      ∀ p ∈ ConsumerPayg.renew store cid qs,
        (p.2.current_count = qs.count ∧ p.2.remote_count = qs.count) ∨ p ∈ store) := by
  refine ⟨?_, ?_, ?_⟩
  · intro p hp
    have h0 := runChannel_onchain evs p hp
    omega
  · intro store id
    rfl
  · intro store cid qs p hp
    simp only [ConsumerPayg.renew, List.mem_map] at hp
    obtain ⟨q, hq, hpq⟩ := hp
    split at hpq
    · left
      rw [← hpq]
      exact ⟨rfl, rfl⟩
    · right
      rw [← hpq]
      exact hq

/-- Witness for C3 on the concrete two-event trace. -/
theorem c3_channel_counters_witness :
    ("ab", exCh5) ∈ ConsumerPayg.runChannel [.add exOpenInfo, .renew 10 exQ5] ∧
      exCh5.onchain_count ≤ exCh5.current_count := by
  have hmem : ("ab", exCh5) ∈ ConsumerPayg.runChannel [.add exOpenInfo, .renew 10 exQ5] := by
    decide
  exact ⟨hmem,
    (c3_channel_counters [.add exOpenInfo, .renew 10 exQ5]).1 ("ab", exCh5) hmem⟩

/-! Claim C8: counterexample, amended theorem and witness. -/

theorem groupMessageStep_capacity (acc : GroupState × List GroupEv) (x : GroupMessage) :
    (groupMessageStep acc x).1.capacity = acc.1.capacity := by
  rw [groupMessageStep]
  split
  · split
    · rfl
    · split <;> rfl
  · rfl

theorem groupMessageStep_received_length (acc : GroupState × List GroupEv)
    (x : GroupMessage) :
    (groupMessageStep acc x).1.received.length ≤ acc.1.received.length + 1 := by
  rw [groupMessageStep]
  split
  · split
    · omega
    · split
      · simp
      · simp only [List.length_cons]
        have h := List.length_dropLast acc.1.received
        omega
  · omega

theorem groupMessageStep_potential (m x : GroupMessage) (acc : GroupState × List GroupEv)
    (hlt : acc.1.received.length < acc.1.capacity) :
    (groupMessageStep acc x).2.count (GroupEv.Message m) +
        (if m ∈ (groupMessageStep acc x).1.received then 0 else 1) ≤
      acc.2.count (GroupEv.Message m) + (if m ∈ acc.1.received then 0 else 1) := by
  rw [groupMessageStep]
  split
  · split
    · exact le_refl _
    · rename_i hjoined hnotrec
      have hxnot : x ∉ acc.1.received := by
        intro hmem
        exact hnotrec (List.elem_eq_true_of_mem hmem)
      by_cases hxm : x = m
      · subst hxm
        rw [if_neg hxnot]
        have hcnt : (acc.2 ++ [GroupEv.Message x]).count (GroupEv.Message x) =
            acc.2.count (GroupEv.Message x) + 1 := by
          simp [List.count_append]
        simp only [hcnt]
        rw [if_pos (by exact List.mem_cons_self x acc.1.received)]
      · have hnotm : GroupEv.Message m ∉ [GroupEv.Message x] := by
          simp only [List.mem_singleton, GroupEv.Message.injEq]
          exact fun h => hxm h.symm
        have hcnt : (acc.2 ++ [GroupEv.Message x]).count (GroupEv.Message m) =
            acc.2.count (GroupEv.Message m) := by
          rw [List.count_append, List.count_eq_zero.mpr hnotm, Nat.add_zero]
        simp only [hcnt]
        have hmem : (m ∈ x :: acc.1.received) ↔ (m ∈ acc.1.received) := by
          constructor
          · intro h
            rcases List.mem_cons.mp h with h | h
            · exact absurd h.symm hxm
            · exact h
          · exact fun h => List.mem_cons_of_mem _ h
        by_cases hmr : m ∈ acc.1.received
        · rw [if_pos (hmem.mpr hmr), if_pos hmr]
        · rw [if_neg (fun hc => hmr (hmem.mp hc)), if_neg hmr]
  · exact le_refl _

theorem foldl_groupMessageStep_length (msgs : List GroupMessage) :
    ∀ acc : GroupState × List GroupEv,
      (msgs.foldl groupMessageStep acc).1.received.length ≤
          acc.1.received.length + msgs.length ∧
        (msgs.foldl groupMessageStep acc).1.capacity = acc.1.capacity := by
  induction msgs with
  | nil => intro acc; exact ⟨Nat.le_add_right _ _, rfl⟩
  | cons x rest ih =>
    intro acc
    rw [List.foldl_cons]
    have h1 := groupMessageStep_received_length acc x
    have h2 := groupMessageStep_capacity acc x
    have h3 := ih (groupMessageStep acc x)
    constructor
    · simp only [List.length_cons]
      omega
    · rw [h3.2, h2]

theorem foldl_groupMessageStep_potential (m : GroupMessage) (msgs : List GroupMessage) :
    ∀ acc : GroupState × List GroupEv,
      acc.1.received.length + msgs.length ≤ acc.1.capacity →
      (msgs.foldl groupMessageStep acc).2.count (GroupEv.Message m) +
          (if m ∈ (msgs.foldl groupMessageStep acc).1.received then 0 else 1) ≤
        acc.2.count (GroupEv.Message m) + (if m ∈ acc.1.received then 0 else 1) := by
  induction msgs with
  | nil => intro acc _; exact le_refl _
  | cons x rest ih =>
    intro acc hcap
    rw [List.foldl_cons]
    simp only [List.length_cons] at hcap
    have hlt : acc.1.received.length < acc.1.capacity := by omega
    have hcap2 : (groupMessageStep acc x).1.received.length + rest.length ≤
        (groupMessageStep acc x).1.capacity := by
      have h1 := groupMessageStep_received_length acc x
      have h2 := groupMessageStep_capacity acc x
      omega
    exact le_trans (ih (groupMessageStep acc x) hcap2)
      (groupMessageStep_potential m x acc hlt)

theorem inject_group_messages_potential (m : GroupMessage) (s : GroupState)
    (msgs : List GroupMessage) (hcap : s.received.length + msgs.length ≤ s.capacity) :
    (inject_group_messages s msgs).2.count (GroupEv.Message m) +
        (if m ∈ (inject_group_messages s msgs).1.received then 0 else 1) ≤
      (if m ∈ s.received then 0 else 1) := by
  have h := foldl_groupMessageStep_potential m msgs (s, []) hcap
  simpa [inject_group_messages] using h

theorem foldl_groupBatchStep_potential (m : GroupMessage)
    (batches : List (List GroupMessage)) :
    ∀ acc : GroupState × List GroupEv,
      acc.1.received.length + (batches.map List.length).sum ≤ acc.1.capacity →
      (batches.foldl groupBatchStep acc).2.count (GroupEv.Message m) +
          (if m ∈ (batches.foldl groupBatchStep acc).1.received then 0 else 1) ≤
        acc.2.count (GroupEv.Message m) + (if m ∈ acc.1.received then 0 else 1) := by
  induction batches with
  | nil => intro acc _; exact le_refl _
  | cons b rest ih =>
    intro acc hcap
    rw [List.foldl_cons]
    simp only [List.map_cons, List.sum_cons] at hcap
    have hb : acc.1.received.length + b.length ≤ acc.1.capacity := by omega
    have hlen := foldl_groupMessageStep_length b (acc.1, [])
    have hcap2 : (groupBatchStep acc b).1.received.length + (rest.map List.length).sum ≤
        (groupBatchStep acc b).1.capacity := by
      simp only [groupBatchStep, inject_group_messages]
      have h1 : (List.foldl groupMessageStep (acc.1, []) b).1.received.length ≤
          acc.1.received.length + b.length := hlen.1
      have h2 : (List.foldl groupMessageStep (acc.1, []) b).1.capacity =
          acc.1.capacity := hlen.2
      omega
    refine le_trans (ih (groupBatchStep acc b) hcap2) ?_
    have hinj := inject_group_messages_potential m acc.1 b hb
    rw [groupBatchStep]
    simp only [List.count_append]
    split at hinj <;> split <;> omega

theorem runGroupInjects_potential (m : GroupMessage) (s : GroupState)
    (batches : List (List GroupMessage))
    (hcap : s.received.length + (batches.map List.length).sum ≤ s.capacity) :
    (runGroupInjects s batches).2.count (GroupEv.Message m) +
        (if m ∈ (runGroupInjects s batches).1.received then 0 else 1) ≤
      (if m ∈ s.received then 0 else 1) := by
  have h := foldl_groupBatchStep_potential m batches (s, []) hcap
  simpa [runGroupInjects] using h

/-- Counterexample to C8 as stated, in both directions the source
diverges from the claim.  First, the dedup filter hashes the whole
`GroupMessage`, not `(source, sequence)`: after `exM1` is recorded,
processing `exM2` — same source, same sequence, different data — emits
`GroupEvent::Message` again, though the claim requires no emission.
Second, never-twice fails outright once the bounded filter evicts
(`Err(NotEnoughSpace)`): on a filter of capacity 1, the run
`[exM1], [exM2], [exM1]` delivers `exM1` twice, because recording `exM2`
evicts `exM1`'s dedup record while still emitting the event. -/
theorem c8_counterexample :
    (exM1.source = exM2.source ∧ exM1.sequence = exM2.sequence ∧ exM1 ≠ exM2 ∧
      exM1 ∈ (inject_group_messages exGroupState [exM1]).1.received ∧
      (inject_group_messages (inject_group_messages exGroupState [exM1]).1 [exM2]).2 =
        [GroupEv.Message exM2]) ∧
    (runGroupInjects exGroupStateCap1 [[exM1], [exM2], [exM1]]).2.count
        (GroupEv.Message exM1) = 2 := by
  refine ⟨⟨rfl, rfl, by decide, by decide, by decide⟩, by decide⟩

/-- C8 (amended): dedup is keyed on the full message (the derived `Hash`
of `GroupMessage` covers source, group, sequence and data), and the
never-twice guarantee is conditional on the bounded filter not evicting.
As long as the recorded messages plus the injected ones fit the filter's
capacity — so the `Err(NotEnoughSpace)` arm of `test_and_add`, which
evicts another record and still emits, is never taken — a message
already recorded in the filter is never emitted again over every
sequence of `inject_event` deliveries, and any given message is emitted
at most once in total. -/
theorem c8_group_dedup (s : GroupState) (batches : List (List GroupMessage))
    (m : GroupMessage)
    (hcap : s.received.length + (batches.map List.length).sum ≤ s.capacity) :
    (m ∈ s.received → GroupEv.Message m ∉ (runGroupInjects s batches).2) ∧
    (runGroupInjects s batches).2.count (GroupEv.Message m) ≤ 1 := by
  have hpot := runGroupInjects_potential m s batches hcap
  constructor
  · intro hm
    rw [if_pos hm] at hpot
    have hcount : (runGroupInjects s batches).2.count (GroupEv.Message m) = 0 := by
      omega
    exact List.count_eq_zero.mp hcount
  · have h1 : (if m ∈ s.received then 0 else 1) ≤ 1 := by split <;> omega
    omega

/-- Witness for C8: with `exM1` already recorded in a filter far under
capacity, re-delivering it is not re-emitted. -/
theorem c8_group_dedup_witness :
    exM1 ∈ exGroupStateR.received ∧
      exGroupStateR.received.length + ([[exM1]].map List.length).sum ≤
        exGroupStateR.capacity ∧
      (GroupEv.Message exM1 ∉ (runGroupInjects exGroupStateR [[exM1]]).2 ∧
        (runGroupInjects exGroupStateR [[exM1]]).2.count (GroupEv.Message exM1) ≤ 1) := by
  have hmem : exM1 ∈ exGroupStateR.received := by decide
  have hcap : exGroupStateR.received.length + ([[exM1]].map List.length).sum ≤
      exGroupStateR.capacity := by decide
  have h := c8_group_dedup exGroupStateR [[exM1]] exM1 hcap
  exact ⟨hmem, hcap, h.1 hmem, h.2⟩

/-! Claim C7: amended theorem, counterexample and witness. -/

theorem find?_key_append {β : Type} (pre post : List (Nat × β)) (peer : Nat) (v : β)
    (hpre : ∀ p ∈ pre, p.1 ≠ peer) :
    (pre ++ (peer, v) :: post).find? (fun p => p.1 == peer) = some (peer, v) := by
  induction pre with
  | nil => simp [List.find?]
  | cons a rest ih =>
    have ha : (a.1 == peer) = false := by
      have := hpre a (List.mem_cons_self a rest)
      simpa using this
    rw [List.cons_append, List.find?_cons]
    simp only [ha, cond_false]
    exact ih (fun p hp => hpre p (List.mem_cons_of_mem a hp))

theorem updateFirstPeer_append (f : List Connection → List Connection)
    (pre post : List (Nat × List Connection)) (peer : Nat) (v : List Connection)
    (hpre : ∀ p ∈ pre, p.1 ≠ peer) :
    updateFirstPeer f (pre ++ (peer, v) :: post) peer = pre ++ (peer, f v) :: post := by
  induction pre with
  | nil => simp [updateFirstPeer]
  | cons a rest ih =>
    rw [List.cons_append, updateFirstPeer]
    rw [if_neg (hpre a (List.mem_cons_self a rest))]
    rw [ih (fun p hp => hpre p (List.mem_cons_of_mem a hp))]
    rfl

theorem updateFirstConn_no_rid (conns : List Connection) (conn rid : Nat)
    (hc : ∀ c ∈ conns, c.pending_inbound_responses.contains rid = true → c.id = conn)
    (hids : conns.Pairwise (fun a b => a.id ≠ b.id)) :
    ∀ c2 ∈ updateFirstConn
        (fun c => { c with pending_inbound_responses :=
          c.pending_inbound_responses.filter (fun x => x ≠ rid) }) conns conn,
      c2.pending_inbound_responses.contains rid = false := by
  induction conns with
  | nil => intro c2 hc2; simp [updateFirstConn] at hc2
  | cons c0 rest ih =>
    rw [updateFirstConn]
    by_cases h0 : c0.id = conn
    · rw [if_pos h0]
      intro c2 hc2
      rcases List.mem_cons.mp hc2 with h | h
      · subst h
        cases hcon : (c0.pending_inbound_responses.filter (fun x => x ≠ rid)).contains rid
        · rfl
        · exfalso
          have hmem := List.mem_of_elem_eq_true hcon
          have := (List.mem_filter.mp hmem).2
          simp at this
      · cases hcon : c2.pending_inbound_responses.contains rid
        · rfl
        · exact absurd (h0.trans (hc c2 (List.mem_cons_of_mem _ h) hcon).symm)
            ((List.pairwise_cons.mp hids).1 c2 h)
    · rw [if_neg h0]
      intro c2 hc2
      rcases List.mem_cons.mp hc2 with h | h
      · subst h
        cases hcon : c2.pending_inbound_responses.contains rid
        · rfl
        · exact absurd (hc c2 (List.mem_cons_self _ _) hcon) h0
      · exact ih (fun c hcm => hc c (List.mem_cons_of_mem _ hcm))
          ((List.pairwise_cons.mp hids).2) c2 h

/-- Counterexample to C7 as stated: a sync caller (uid 7) is waiting on
request id 5 in `sync_requests`; when the timeout failure for id 5
reaches the event loop, the `OutboundFailure` arm does nothing — the
entry stays and no JSON-RPC error message is sent to the caller. -/
theorem c7_counterexample :
    handle_rpc_event [(5, 7, false)]
        (RpcEv.OutboundFailure 2 5 OutboundFailureKind.Timeout) =
      ([(5, 7, false)], []) := rfl

/-- C7 (amended): when an outbound substream times out, the behaviour
emits `OutboundFailure::Timeout` carrying that request id and removes the
id from the pending set (`is_pending_outbound` becomes false); the node
event loop, however, ignores `OutboundFailure` events — `sync_requests`
is left unchanged and no JSON-RPC reply is produced for the waiting sync
caller (the node merely continues). -/
theorem c7_outbound_timeout
    (s : RpcState) (pre post : List (Nat × List Connection)) (conns : List Connection)
    (peer conn rid : Nat) (sync : List (Nat × Nat × Bool))
    (hconn : s.connected = pre ++ (peer, conns) :: post)
    (hpre : ∀ p ∈ pre, p.1 ≠ peer)
    (hc : ∀ c ∈ conns, c.pending_inbound_responses.contains rid = true → c.id = conn)
    (hids : conns.Pairwise (fun a b => a.id ≠ b.id))
    (hpen : ∀ q ∈ s.pending_outbound_requests, rid ∉ q.2) :
    (inject_outbound_timeout s peer conn rid).2 =
      RpcEv.OutboundFailure peer rid OutboundFailureKind.Timeout ∧
    is_pending_outbound (inject_outbound_timeout s peer conn rid).1 peer rid = false ∧
    handle_rpc_event sync (RpcEv.OutboundFailure peer rid OutboundFailureKind.Timeout) =
      (sync, []) := by
  refine ⟨rfl, ?_, rfl⟩
  have hstate : (inject_outbound_timeout s peer conn rid).1.connected =
      pre ++ (peer, updateFirstConn
        (fun c => { c with pending_inbound_responses :=
          c.pending_inbound_responses.filter (fun x => x ≠ rid) }) conns conn) :: post := by
    simp only [inject_outbound_timeout, remove_pending_inbound_response, hconn]
    exact updateFirstPeer_append _ pre post peer conns hpre
  have hstate2 : (inject_outbound_timeout s peer conn rid).1.pending_outbound_requests =
      s.pending_outbound_requests := rfl
  have hfind : (inject_outbound_timeout s peer conn rid).1.connected.find?
      (fun p => p.1 == peer) = some (peer, updateFirstConn
        (fun c => { c with pending_inbound_responses :=
          c.pending_inbound_responses.filter (fun x => x ≠ rid) }) conns conn) := by
    rw [hstate]
    exact find?_key_append pre post peer _ hpre
  have hany : (updateFirstConn
      (fun c => { c with pending_inbound_responses :=
        c.pending_inbound_responses.filter (fun x => x ≠ rid) }) conns conn).any
      (fun c => c.pending_inbound_responses.contains rid) = false := by
    rw [List.any_eq_false]
    intro c hcmem hmem
    rw [updateFirstConn_no_rid conns conn rid hc hids c hcmem] at hmem
    exact Bool.false_ne_true hmem
  have hpenF : ((s.pending_outbound_requests.find? (fun p => p.1 == peer)).map
      (fun p => p.2.any (fun r => r == rid))).getD false = false := by
    cases hfind2 : s.pending_outbound_requests.find? (fun p => p.1 == peer) with
    | none => rfl
    | some q =>
      have hq := List.mem_of_find?_eq_some hfind2
      have hnot := hpen q hq
      have : q.2.any (fun r => r == rid) = false := by
        rw [List.any_eq_false]
        intro x hx hbeq
        exact hnot (by rwa [eq_of_beq hbeq] at hx)
      simp [this]
  rw [is_pending_outbound]
  simp only [hfind, hstate2, Option.map_some', Option.getD_some, hany, hpenF]
  rfl

/-- Witness for C7 on a concrete behaviour state and sync-caller map. -/
theorem c7_outbound_timeout_witness :
    (inject_outbound_timeout exRpcState 2 1 5).2 =
        RpcEv.OutboundFailure 2 5 OutboundFailureKind.Timeout ∧
      is_pending_outbound (inject_outbound_timeout exRpcState 2 1 5).1 2 5 = false ∧
      handle_rpc_event [(5, 7, false)]
          (RpcEv.OutboundFailure 2 5 OutboundFailureKind.Timeout) =
        ([(5, 7, false)], []) := by
  exact c7_outbound_timeout exRpcState [] [] [exConn] 2 1 5 [(5, 7, false)]
    rfl (by simp) (by decide) (by simp) (by simp [exRpcState])

/-! Claim C1: evaluation of the `/open` handler at the failing input. -/

/-- C1 (the code bug, stated over the handler): whenever the request body
parses, the indexer countersign succeeds, `recover` succeeds and returns
a consumer address DIFFERENT from the state's `consumer` field, and the
coordinator supplies a price, `open_state` still returns the dual-signed
state with `.ok` instead of failing with `InvalidSignature` — the
recovered addresses are bound to `(_, _consumer)` and never compared to
the state's fields. -/
theorem c1_open_state_skips_consumer_check (c : Crypto) (key p : Nat) (body : Json)
    (st st' : SrcPayg.OpenState) (i a : Nat)
    (hparse : SrcPayg.OpenState.from_json body = .ok st)
    (hsign : SrcPayg.OpenState.sign c key st false = .ok st')
    (hrec : SrcPayg.OpenState.recover c st' = .ok (i, a))
    (_hne : a ≠ st'.consumer) :
    SrcPayg.open_state c key (.ok p) body =
      .ok (SrcPayg.OpenState.to_json { st' with next_price := p }) := by
  unfold SrcPayg.open_state
  rw [hparse, ok_bind, hsign, ok_bind, hrec, ok_bind, ok_bind]

set_option maxRecDepth 40000 in
/-- Witness for C1 at the concrete failing input: `c1Body` carries a
`consumer_sign` recovering (under `toyCrypto`) to address 3 while its
`consumer` field is address 1, yet the handler answers `.ok`. -/
theorem c1_open_state_skips_consumer_check_witness :
    SrcPayg.OpenState.from_json c1Body = .ok c1Parsed ∧
    SrcPayg.OpenState.sign toyCrypto 7 c1Parsed false = .ok c1Signed ∧
    SrcPayg.OpenState.recover toyCrypto c1Signed = .ok (7, 3) ∧
    (3 : Nat) ≠ c1Signed.consumer ∧
    SrcPayg.open_state toyCrypto 7 (.ok 10) c1Body =
      .ok (SrcPayg.OpenState.to_json { c1Signed with next_price := 10 }) :=
  ⟨rfl, rfl, rfl, by decide,
    c1_open_state_skips_consumer_check toyCrypto 7 10 c1Body c1Parsed c1Signed 7 3
      rfl rfl rfl (by decide)⟩

/-! Claim C2: evaluation of the consumer query advance at the failing
input. -/

/-- C2 (code evaluated at the failing input): on a channel with
`current_count = 9`, `last_price = 10`, deposit 100 — the query S3
expects to be final — `next_query` emits count 10 with
`is_final = false` (the source hardcodes `let is_final = false; // TODO
more`), although `10 * 10 ≥ 100`; and once the peer has acknowledged a
final state (`last_final = true`), a further `query_handler` call still
succeeds instead of failing with `InvalidRequest`. -/
theorem c2_next_query_hardcodes_is_final :
    (∃ st, ConsumerPayg.next_query toyCrypto exChannel9 2 = .ok st ∧
      st.count = 10 ∧ st.is_final = false ∧
      exChannel9.balance ≤ st.count * exChannel9.last_price) ∧
    (∃ st2, ConsumerPayg.query_handler toyCrypto [("ab", exChannelFinal)] "ab" 2 =
        .ok st2 ∧ st2.is_final = false) := by
  refine ⟨⟨_, rfl, rfl, rfl, by decide⟩, ⟨_, rfl, rfl⟩⟩

/-! Claim C6: counterexample, amended theorem and witness. -/

/-- Counterexample to C6 as stated: a `QueryState` or `OpenState` JSON
whose signature values are not valid 65-byte hex strings still parses
successfully — `convert_string_to_sign` silently falls back to 65 zero
bytes (`unwrap_or`) instead of surfacing `InvalidSerialize`. -/
theorem c6_counterexample :
    QueryState.from_json exBadSigJson =
      .ok { channel_id := 10, indexer := 1, consumer := 2, count := 5, price := 10
          , is_final := false, indexer_sign := default_sign
          , consumer_sign := default_sign, next_price := 10 } ∧
    OpenState.from_json exBadSigOpenJson =
      .ok { channel_id := 10, indexer := 1, consumer := 2, amount := 100
          , expiration := 86400, callback := [7, 8], indexer_sign := default_sign
          , consumer_sign := default_sign, next_price := 10 } := by
  exact ⟨rfl, rfl⟩

theorem orSerialize_bind_error {α β : Type} (o : Option α) (f : α → Except Error β)
    (e : Error) (he : (orSerialize o >>= f) = .error e)
    (hf : ∀ a, f a = .error e → e = .InvalidSerialize) : e = .InvalidSerialize := by
  cases o with
  | none =>
    have h : (Except.error Error.InvalidSerialize : Except Error β) = .error e := he
    exact (Except.error.inj h).symm
  | some a => exact hf a he

/-- C6 (amended): every failure of `QueryState::from_json` or
`OpenState::from_json` is `InvalidSerialize` — a missing key, a
non-string (or, for `isFinal`, non-boolean) value, or an unparsable
numeric/address/callback field; but the two signature fields only need
to be present as strings: their content is never validated, an
arbitrary string is accepted and decoded leniently (invalid hex becomes
65 zero bytes, short hex is zero-padded). -/
theorem c6_serialize_errors (params : Json) :
    (∀ e, QueryState.from_json params = .error e → e = .InvalidSerialize) ∧
    (∀ e, OpenState.from_json params = .error e → e = .InvalidSerialize) ∧
    (∀ (s1 : String) (n1 : Nat) (s2 : String) (a2 : Nat) (s3 : String) (a3 : Nat)
        (s4 : String) (n4 : Nat) (s5 : String) (n5 : Nat) (b6 : Bool)
        (s7 s8 s9 : String) (n9 : Nat),
      (params.index "channelId").asStr = some s1 → u256_from_str? s1 = some n1 →
      (params.index "indexer").asStr = some s2 → address_from_str? s2 = some a2 →
      (params.index "consumer").asStr = some s3 → address_from_str? s3 = some a3 →
      (params.index "count").asStr = some s4 → from_dec_str? s4 = some n4 →
      (params.index "price").asStr = some s5 → from_dec_str? s5 = some n5 →
      (params.index "isFinal").asBool = some b6 →
      (params.index "indexerSign").asStr = some s7 →
      (params.index "consumerSign").asStr = some s8 →
      (params.index "nextPrice").asStr = some s9 → from_dec_str? s9 = some n9 →
      QueryState.from_json params = .ok
        { channel_id := n1, indexer := a2, consumer := a3, count := n4, price := n5
        , is_final := b6, indexer_sign := convert_string_to_sign s7
        , consumer_sign := convert_string_to_sign s8, next_price := n9 }) ∧
    (∀ (s1 : String) (n1 : Nat) (s2 : String) (a2 : Nat) (s3 : String) (a3 : Nat)
        (s4 : String) (n4 : Nat) (s5 : String) (n5 : Nat) (s6 : String) (cb : List Nat)
        (s7 s8 s9 : String) (n9 : Nat),
      (params.index "channelId").asStr = some s1 → u256_from_str? s1 = some n1 →
      (params.index "indexer").asStr = some s2 → address_from_str? s2 = some a2 →
      (params.index "consumer").asStr = some s3 → address_from_str? s3 = some a3 →
      (params.index "amount").asStr = some s4 → from_dec_str? s4 = some n4 →
      (params.index "expiration").asStr = some s5 → from_dec_str? s5 = some n5 →
      (params.index "callback").asStr = some s6 → hexDecode? s6 = some cb →
      (params.index "indexerSign").asStr = some s7 →
      (params.index "consumerSign").asStr = some s8 →
      (params.index "nextPrice").asStr = some s9 → from_dec_str? s9 = some n9 →
      OpenState.from_json params = .ok
        { channel_id := n1, indexer := a2, consumer := a3, amount := n4
        , expiration := n5, callback := cb
        , indexer_sign := convert_string_to_sign s7
        , consumer_sign := convert_string_to_sign s8, next_price := n9 }) := by
  refine ⟨?_, ?_, ?_, ?_⟩
  · intro e he
    rw [QueryState.from_json] at he
    refine orSerialize_bind_error _ _ _ he (fun a1 h1 => ?_)
    refine orSerialize_bind_error _ _ _ h1 (fun a2 h2 => ?_)
    refine orSerialize_bind_error _ _ _ h2 (fun a3 h3 => ?_)
    refine orSerialize_bind_error _ _ _ h3 (fun a4 h4 => ?_)
    refine orSerialize_bind_error _ _ _ h4 (fun a5 h5 => ?_)
    refine orSerialize_bind_error _ _ _ h5 (fun a6 h6 => ?_)
    refine orSerialize_bind_error _ _ _ h6 (fun a7 h7 => ?_)
    refine orSerialize_bind_error _ _ _ h7 (fun a8 h8 => ?_)
    refine orSerialize_bind_error _ _ _ h8 (fun a9 h9 => ?_)
    refine orSerialize_bind_error _ _ _ h9 (fun a10 h10 => ?_)
    refine orSerialize_bind_error _ _ _ h10 (fun a11 h11 => ?_)
    refine orSerialize_bind_error _ _ _ h11 (fun a12 h12 => ?_)
    refine orSerialize_bind_error _ _ _ h12 (fun a13 h13 => ?_)
    refine orSerialize_bind_error _ _ _ h13 (fun a14 h14 => ?_)
    refine orSerialize_bind_error _ _ _ h14 (fun a15 h15 => ?_)
    exact Except.noConfusion h15
  · intro e he
    rw [OpenState.from_json] at he
    refine orSerialize_bind_error _ _ _ he (fun a1 h1 => ?_)
    refine orSerialize_bind_error _ _ _ h1 (fun a2 h2 => ?_)
    refine orSerialize_bind_error _ _ _ h2 (fun a3 h3 => ?_)
    refine orSerialize_bind_error _ _ _ h3 (fun a4 h4 => ?_)
    refine orSerialize_bind_error _ _ _ h4 (fun a5 h5 => ?_)
    refine orSerialize_bind_error _ _ _ h5 (fun a6 h6 => ?_)
    refine orSerialize_bind_error _ _ _ h6 (fun a7 h7 => ?_)
    refine orSerialize_bind_error _ _ _ h7 (fun a8 h8 => ?_)
    refine orSerialize_bind_error _ _ _ h8 (fun a9 h9 => ?_)
    refine orSerialize_bind_error _ _ _ h9 (fun a10 h10 => ?_)
    refine orSerialize_bind_error _ _ _ h10 (fun a11 h11 => ?_)
    refine orSerialize_bind_error _ _ _ h11 (fun a12 h12 => ?_)
    refine orSerialize_bind_error _ _ _ h12 (fun a13 h13 => ?_)
    refine orSerialize_bind_error _ _ _ h13 (fun a14 h14 => ?_)
    refine orSerialize_bind_error _ _ _ h14 (fun a15 h15 => ?_)
    refine orSerialize_bind_error _ _ _ h15 (fun a16 h16 => ?_)
    exact Except.noConfusion h16
  · intro s1 n1 s2 a2 s3 a3 s4 n4 s5 n5 b6 s7 s8 s9 n9
    intro h1 h1b h2 h2b h3 h3b h4 h4b h5 h5b h6 h7 h8 h9 h9b
    rw [QueryState.from_json]
    simp only [h1, h1b, h2, h2b, h3, h3b, h4, h4b, h5, h5b, h6, h7, h8, h9, h9b,
      orSerialize, ok_bind]
  · intro s1 n1 s2 a2 s3 a3 s4 n4 s5 n5 s6 cb s7 s8 s9 n9
    intro h1 h1b h2 h2b h3 h3b h4 h4b h5 h5b h6 h6b h7 h8 h9 h9b
    rw [OpenState.from_json]
    simp only [h1, h1b, h2, h2b, h3, h3b, h4, h4b, h5, h5b, h6, h6b, h7, h8, h9, h9b,
      orSerialize, ok_bind]

/-- Witness for C6: applied at the `QueryState` and `OpenState` JSONs
with garbage signature strings. -/
theorem c6_serialize_errors_witness :
    (exBadSigJson.index "indexerSign").asStr = some "zz" ∧
      QueryState.from_json exBadSigJson =
        .ok { channel_id := 10, indexer := 1, consumer := 2, count := 5, price := 10
            , is_final := false, indexer_sign := convert_string_to_sign "zz"
            , consumer_sign := convert_string_to_sign "not-a-signature"
            , next_price := 10 } ∧
      (exBadSigOpenJson.index "consumerSign").asStr = some "not-a-signature" ∧
      OpenState.from_json exBadSigOpenJson =
        .ok { channel_id := 10, indexer := 1, consumer := 2, amount := 100
            , expiration := 86400, callback := [7, 8]
            , indexer_sign := convert_string_to_sign "zz"
            , consumer_sign := convert_string_to_sign "not-a-signature"
            , next_price := 10 } :=
  ⟨rfl,
    (c6_serialize_errors exBadSigJson).2.2.1 "0xA" 10 (addrDebugStr 1) 1 (addrDebugStr 2) 2
      "5" 5 "10" 10 false "zz" "not-a-signature" "10" 10
      rfl rfl rfl rfl rfl rfl rfl rfl rfl rfl rfl rfl rfl rfl rfl,
    rfl,
    (c6_serialize_errors exBadSigOpenJson).2.2.2 "0xA" 10 (addrDebugStr 1) 1
      (addrDebugStr 2) 2 "100" 100 "86400" 86400 "0708" [7, 8] "zz" "not-a-signature"
      "10" 10
      rfl rfl rfl rfl rfl rfl rfl rfl rfl rfl rfl rfl rfl rfl rfl rfl⟩

end SubqlProxy
